import Mathlib

/-! Verification development for the Trier SGF synchronization and
reconciliation engine (`conexao_api_trier_sgf.py`).

The pandas DataFrames of the source are embedded shallowly: a cell value is
either a string, an exact numeral, or NaN (which also stands for a missing
cell after column alignment, exactly as pandas fills reindexed cells with
NaN); a row is an association list from column names to values; a DataFrame
is a column list plus a row list.  Numerals are modelled as rationals: the
only numeric operation the modelled code performs is multiplication by -1
(`pd.to_numeric(...).fillna(0) * -1`), which is exact on floats, so rationals
model it faithfully.  Numeric text in source payloads is modelled as `num`
values at ingestion; a general string cell coerces to NaN under
`pd.to_numeric` with coercing error mode, which the model mirrors.
-/

namespace Trier

/-- A pandas cell value: string, exact numeral, or NaN/missing. -/
inductive Value where
  | str (s : String)
  | num (q : ℚ)
  | nan
deriving DecidableEq, Repr

/-- A DataFrame row: an association list from column names to cell values.
Keys are unique by construction (Python dict / pandas row). -/
abbrev Row : Type := List (String × Value)

/-- Reading a cell.  A missing key reads as NaN, exactly as pandas yields NaN
for cells introduced by column alignment / reindexing. -/
def getCell (r : Row) (c : String) : Value :=
  match List.find? (fun kv => kv.1 = c) r with
  | some kv => kv.2
  | none => Value.nan

/-- Writing a cell: overwrite in place if the key exists, else append
(Python dict assignment semantics, insertion order preserved). -/
def setCell (r : Row) (c : String) (v : Value) : Row :=
  if List.any r (fun kv => kv.1 = c) then
    List.map (fun kv => if kv.1 = c then (c, v) else kv) r
  else
    r ++ [(c, v)]

/-- The keys present in a row. -/
def rowKeys (r : Row) : List String :=
  List.map Prod.fst r

/-- Ordered union of two column lists (order of the first list kept, new
columns appended).  The alphabetical sorting that pandas `Index.union`
performs is abstracted away: no modelled claim observes column order. -/
def colsUnion (c1 c2 : List String) : List String :=
  c1 ++ List.filter (fun c => ¬ c1.contains c) c2

/-- A DataFrame: column list plus row list. -/
structure DataFrame where
  cols : List String
  rows : List Row
deriving DecidableEq, Repr

/-- Model of `pd.DataFrame()` / `pd.DataFrame([])`: zero rows, zero columns. -/
def emptyDF : DataFrame := ⟨[], []⟩

/-- Model of `pd.DataFrame(list_of_dicts)`: columns in order of first
appearance. -/
def mkDF (rows : List Row) : DataFrame :=
  ⟨List.foldl (fun acc r => colsUnion acc (rowKeys r)) [] rows, rows⟩

/-- Model of `df[df[c] == v]`: row filter by an equality comparison on one column
(comparison with NaN is false, as in pandas). -/
def filterEq (df : DataFrame) (c : String) (v : Value) : DataFrame :=
  ⟨df.cols, List.filter (fun r => getCell r c = v) df.rows⟩

/-- Model of `df[c] = v` for a scalar `v`: set the column on every row, adding the
column if absent. -/
def setColumn (df : DataFrame) (c : String) (v : Value) : DataFrame :=
  ⟨if df.cols.contains c then df.cols else df.cols ++ [c],
   List.map (fun r => setCell r c v) df.rows⟩

/-- Model of the source line that defaults the status column:
`df["status"] = df.get("status", pd.Series(dtype=str)).fillna("OK")`.
When the column exists, NaN entries become "OK".  When it does not, the
`get` default is an EMPTY Series whose assignment aligns by index and
therefore fills the whole new column with NaN — the rows are unchanged and
only the column list grows. -/
def fillStatusOk (df : DataFrame) : DataFrame :=
  if df.cols.contains "status" then
    ⟨df.cols,
     List.map (fun r =>
       if getCell r "status" = Value.nan then setCell r "status" (Value.str "OK") else r) df.rows⟩
  else
    ⟨df.cols ++ ["status"], df.rows⟩

/-- Model of `pd.to_numeric(x, errors="coerce").fillna(0)`: numerals pass through,
NaN (and cells that coerce to NaN) become 0. -/
def toNumericFill0 : Value → ℚ
  | Value.num q => q
  | _ => 0

/-- The fixed set of financial columns whose sign is flipped for returns. -/
def colsInverter : List String :=
  ["valorTotalCusto", "valorTotalBruto", "valorTotalLiquido",
   "valorTotal", "quantidadeProdutos", "valorDesconto"]

/-- Model of `if col in df.columns: df[col] = pd.to_numeric(df[col], errors="coerce").fillna(0) * -1`. -/
def negateCol (c : String) (df : DataFrame) : DataFrame :=
  if df.cols.contains c then
    ⟨df.cols,
     List.map (fun r => setCell r c (Value.num (toNumericFill0 (getCell r c) * (-1)))) df.rows⟩
  else df

/-- The `for col in cols_inverter:` loop of the return branch. -/
def negateCols (df : DataFrame) : DataFrame :=
  List.foldl (fun acc c => negateCol c acc) df colsInverter

/-- The action of `negateCol c` on one row of a DataFrame whose column list
is `cols`.  Used only to state characterization lemmas about `negateCols`. -/
def negRowStep (cols : List String) (r : Row) (c : String) : Row :=
  if cols.contains c then setCell r c (Value.num (toNumericFill0 (getCell r c) * (-1)))
  else r

/-- Model of `_concatenar_dfs_com_seguranca`: empty operands short-circuit, otherwise
concatenate rows and align columns to the union. -/
def concatSafe (df1 df2 : DataFrame) : DataFrame :=
  if df1.rows.isEmpty then df2
  else if df2.rows.isEmpty then df1
  else ⟨colsUnion df1.cols df2.cols, df1.rows ++ df2.rows⟩

/-- Model of `drop_duplicates(subset=[k], keep="last")`: keep a row iff no later row
has the same key value (NaN keys compare equal to each other, as in pandas),
preserving the order of kept rows. -/
def dedupLast (k : String) : List Row → List Row
  | [] => []
  | r :: rs =>
    if List.any rs (fun r2 => getCell r2 k = getCell r k) then dedupLast k rs
    else r :: dedupLast k rs

/-- Python truthiness of a fetch result: `None` (failed fetch) and `[]`
(successful but empty) both fail an `if data:` test. -/
def optList (o : Option (List Row)) : List Row :=
  match o with
  | none => []
  | some l => l

/-- The cancellation-event block that appears verbatim in both sales
loaders (lines 353–367 and 443–456): when the cancellation DataFrame is
non-empty and has a `tipoCancelamento` column, append the sign-flipped
returns (type "D", status DEVOLUÇÃO) and then the marked deletions (type
"E", status Excluída) after `base`; otherwise `base` is untouched. -/
def devolvidasDF (dfCanc : DataFrame) : DataFrame :=
  setColumn (negateCols (filterEq dfCanc "tipoCancelamento" (Value.str "D")))
    "status" (Value.str "DEVOLUÇÃO")

def excluidasDF (dfCanc : DataFrame) : DataFrame :=
  setColumn (filterEq dfCanc "tipoCancelamento" (Value.str "E"))
    "status" (Value.str "Excluída")

def cancelProcessado (base dfCanc : DataFrame) : DataFrame :=
  if dfCanc.rows.isEmpty ∨ ¬ dfCanc.cols.contains "tipoCancelamento" then base
  else
    let b1 :=
      if (filterEq dfCanc "tipoCancelamento" (Value.str "D")).rows.isEmpty then base
      else concatSafe base (devolvidasDF dfCanc)
    if (filterEq dfCanc "tipoCancelamento" (Value.str "E")).rows.isEmpty then b1
    else concatSafe b1 (excluidasDF dfCanc)

/-- The per-window reconciliation of `realizar_carga_historica_vendas`
(lines 347–371): build the sales DataFrame of the window, default its `status`,
process the cancellation list when it is truthy, and — only when the
`tipoCancelamento` column was present — deduplicate by `numeroNota` keeping
the last occurrence.  (`if not df_cancelados.empty` of line 353 is folded
into `cancelProcessado`; the DataFrame of a non-empty list is non-empty.) -/
def reconcileVendas (dadosVendas : List Row) (dadosCancelados : Option (List Row)) :
    DataFrame :=
  let dfV0 := mkDF dadosVendas
  let dfV := if dfV0.rows.isEmpty then dfV0 else fillStatusOk dfV0
  let cl := optList dadosCancelados
  if cl.isEmpty then dfV
  else if ¬ (mkDF cl).cols.contains "tipoCancelamento" then dfV
  else
    let dfV2 := cancelProcessado dfV (mkDF cl)
    if dfV2.rows.isEmpty then dfV2
    else ⟨dfV2.cols, dedupLast "numeroNota" dfV2.rows⟩

/-- Lines 424–428: the set of natural keys arriving in this run (only
membership in the Python set is ever used, so a list with possible
repetitions models it). -/
def vendasIds (dfAlt dfCanc : DataFrame) : List Value :=
  (if dfAlt.rows.isEmpty then []
   else List.map (fun r => getCell r "numeroNota") dfAlt.rows) ++
  (if dfCanc.rows.isEmpty then []
   else List.map (fun r => getCell r "numeroNota") dfCanc.rows)

/-- Lines 430–431: drop from the table every row whose key is in `ids`
(`isin` matches NaN against NaN, as pandas does). -/
def removerIds (key : String) (df : DataFrame) (ids : List Value) : DataFrame :=
  if ids.isEmpty then df
  else ⟨df.cols, List.filter (fun r => ¬ ids.contains (getCell r key)) df.rows⟩

/-- Lines 434–456: the new/updated record set of one incremental sales run:
the status-defaulted changed records followed by the processed cancellation
events. -/
def vendasNovos (dfAlt dfCanc : DataFrame) : DataFrame :=
  cancelProcessado
    (if dfAlt.rows.isEmpty then emptyDF else concatSafe emptyDF (fillStatusOk dfAlt))
    dfCanc

/-- Lines 421–461 after the both-empty early return: remove the arriving
keys from the table, append the new/updated records, deduplicate by
`numeroNota` keeping the last occurrence, and write the result. -/
def vendasRunCore (existente dfAlt dfCanc : DataFrame) : DataFrame :=
  ⟨(concatSafe (removerIds "numeroNota" existente (vendasIds dfAlt dfCanc))
      (vendasNovos dfAlt dfCanc)).cols,
   dedupLast "numeroNota"
     (concatSafe (removerIds "numeroNota" existente (vendasIds dfAlt dfCanc))
       (vendasNovos dfAlt dfCanc)).rows⟩

/-- Model of `atualizar_vendas_recentes` (lines 394–461), as a function from the
existing table contents and the two fetch results (`None` = failed fetch,
which the Python truthiness tests treat like an empty result) to the table
contents after the run.  A run that writes an empty DataFrame drops the
table, and a dropped table reads back as the empty DataFrame, so returning
the written DataFrame is a faithful table-state model.  A row lacking the
key column reads its key as NaN. -/
def atualizarVendasRecentes (existente : DataFrame)
    (dadosAlterados dadosCancelados : Option (List Row)) : DataFrame :=
  if (mkDF (optList dadosAlterados)).rows.isEmpty ∧
      (mkDF (optList dadosCancelados)).rows.isEmpty then existente
  else vendasRunCore existente (mkDF (optList dadosAlterados)) (mkDF (optList dadosCancelados))

/-- Model of `atualizar_compras_recentes` (lines 725–754): remove the incoming keys
from the existing table, then `pd.concat` (plain, no empty-operand
short-circuit) and deduplicate by `numeroNotaFiscal` keeping the last
occurrence. -/
def atualizarComprasRecentes (existente : DataFrame)
    (dadosAlterados : Option (List Row)) : DataFrame :=
  let altL := optList dadosAlterados
  if altL.isEmpty then existente
  else
    let dfAlt := mkDF altL
    let ids := List.map (fun r => getCell r "numeroNotaFiscal") dfAlt.rows
    let intermRows :=
      List.filter (fun r => ¬ ids.contains (getCell r "numeroNotaFiscal")) existente.rows
    ⟨colsUnion existente.cols dfAlt.cols,
     dedupLast "numeroNotaFiscal" (intermRows ++ dfAlt.rows)⟩

/-- Result of one historical-backfill run: the final persisted checkpoint
(`none` = no checkpoint file), the final table contents, and the start dates
of the windows for which the loop issued fetches. -/
structure BackfillResult where
  ckpt : Option Int
  table : DataFrame
  fetched : List Int
deriving DecidableEq, Repr

/-- Lines 311–319 (and identically 677–686): the date the backfill loop
starts from.  With a checkpoint the run resumes at
`lastCompletedDate + SALES_FILE_DAYS_INTERVAL`; without one it starts at
`HISTORICAL_START_DATE`.  Dates are modelled as day ordinals: the
`yyyy-mm-dd` strings of the source round-trip exactly through
`strftime`/`strptime`, so integer day arithmetic is faithful. -/
def resumeStart (histStart : Int) (windowDays : ℕ) (ckpt : Option Int) : Int :=
  match ckpt with
  | some d => d + (windowDays : Int)
  | none => histStart

/-- Lines 373–378: a non-empty window result is concatenated onto the
accumulated table and deduplicated by `numeroNota` keeping the last
occurrence; an empty window result leaves the table as is (and the write is
skipped). -/
def windowTable (table dfPeriodo : DataFrame) : DataFrame :=
  if dfPeriodo.rows.isEmpty then table
  else ⟨colsUnion table.cols dfPeriodo.cols,
        dedupLast "numeroNota" (table.rows ++ dfPeriodo.rows)⟩

/-- The window loop of `realizar_carga_historica_vendas` (lines 327–391).
`fetchVendas`/`fetchCancel` give the fetch outcome of each window, indexed
by the window start date (the window end date only shapes the request
parameters, which the fetch functions absorb).  Both fetches are issued,
then only the primary result is tested against `None`: a failed primary
fetch returns with checkpoint and table untouched, while a failed
cancellation fetch merely fails the `if dados_cancelados:` truthiness test.
After a processed window the checkpoint becomes the start date of that
window; exhausting the loop clears
the checkpoint.  `windowDays = 0` (never the configured value, which is 10)
would loop forever in the source; the model returns immediately and every
theorem assumes `windowDays ≠ 0`. -/
def backfillVendasLoop (windowDays : ℕ) (endDate : Int)
    (fetchVendas fetchCancel : Int → Option (List Row))
    (cur : Int) (ckpt : Option Int) (table : DataFrame) : BackfillResult :=
  if _h0 : windowDays = 0 then ⟨ckpt, table, []⟩
  else if _hle : cur ≤ endDate then
    match fetchVendas cur with
    | none => ⟨ckpt, table, [cur]⟩
    | some dadosVendas =>
      let rest := backfillVendasLoop windowDays endDate fetchVendas fetchCancel
        (cur + (windowDays : Int)) (some cur)
        (windowTable table (reconcileVendas dadosVendas (fetchCancel cur)))
      ⟨rest.ckpt, rest.table, cur :: rest.fetched⟩
  else ⟨none, table, []⟩
termination_by (endDate + 1 - cur).toNat
decreasing_by
  simp_wf
  omega

/-- Model of `realizar_carga_historica_vendas` (lines 299–391) as a whole run:
compute the resume point from the loaded checkpoint, then run the window
loop over the existing table contents. -/
def realizarCargaHistoricaVendas (histStart : Int) (windowDays : ℕ) (endDate : Int)
    (fetchVendas fetchCancel : Int → Option (List Row))
    (ckpt : Option Int) (table : DataFrame) : BackfillResult :=
  backfillVendasLoop windowDays endDate fetchVendas fetchCancel
    (resumeStart histStart windowDays ckpt) ckpt table

/-- Fixed page size of `_buscar_dados_paginados` (line 267). -/
def quantidadeRegistros : ℕ := 999

/-- The pagination loop of `_buscar_dados_paginados` (lines 270–292) over an
upstream response script: element `i` of the script is the upstream answer
to the `i`-th request (`none` = all retries exhausted).  An exhausted script
means the upstream has no further data, i.e. the next request yields an
empty page.  Returns the loop result (`none` propagates a page failure)
together with the `primeiroRegistro` offsets of the requests issued. -/
def buscarDadosPaginadosAux {α : Type} :
    List (Option (List α)) → List α → ℕ → Option (List α) × List ℕ
  | [], acc, off => (some acc, [off])
  | none :: _, _, off => (none, [off])
  | some page :: rest, acc, off =>
    if page.length = 0 then (some acc, [off])
    else if page.length < quantidadeRegistros then (some (acc ++ page), [off])
    else
      let r := buscarDadosPaginadosAux rest (acc ++ page) (off + quantidadeRegistros)
      (r.1, off :: r.2)

/-- Model of `_buscar_dados_paginados`: the loop started at offset 0 with an
empty accumulator. -/
def buscarDadosPaginados {α : Type} (script : List (Option (List α))) :
    Option (List α) × List ℕ :=
  buscarDadosPaginadosAux script [] 0

/-- Python dict assignment `d[k] = v`: overwrite in place if the key exists,
else append (insertion order preserved). -/
def dictInsert (d : List (String × String)) (k v : String) : List (String × String) :=
  if List.any d (fun kv => kv.1 = k) then
    List.map (fun kv => if kv.1 = k then (k, v) else kv) d
  else d ++ [(k, v)]

/-- Python `d1.update(d2)`: every entry of `d2` is assigned into `d1` in
order, overwriting on key collision. -/
def dictUpdate (d upd : List (String × String)) : List (String × String) :=
  List.foldl (fun acc kv => dictInsert acc kv.1 kv.2) d upd

/-- Dict lookup. -/
def headerLookup (d : List (String × String)) (k : String) : Option String :=
  (List.find? (fun kv => kv.1 = k) d).map Prod.snd

/-- Lines 222–224 of `realizar_requisicao_segura`: build
`auth_headers` as the singleton dict mapping Authorization to the bearer
token, then run `if headers: auth_headers.update(headers)`.  The sent
headers are exactly this dict; `if headers:` is false both for `None` and
for an empty dict. -/
def buildHeaders (token : String) (headers : Option (List (String × String))) :
    List (String × String) :=
  match headers with
  | none => [("Authorization", "Bearer " ++ token)]
  | some h =>
    if h.isEmpty then [("Authorization", "Bearer " ++ token)]
    else dictUpdate [("Authorization", "Bearer " ++ token)] h

/-- Model of `.astype(str)` on one cell.  String cells are unchanged; numerals render
to decimal text (the concrete digit string is abstracted behind `toString`:
no claim observes the digits, only that the result is a string); NaN renders
to the literal text "nan" as numpy does. -/
def valueAsStr : Value → Value
  | Value.str s => Value.str s
  | Value.num q => Value.str (toString q)
  | Value.nan => Value.str "nan"

/-- Model of `sincronizar_estoque` (lines 623–666) as a function from the products
table and the stock fetch result to the products table written back.  The
column rename `codigoProduto → codigo` and the `astype(str)` casts are
folded into the key comparison; `DataFrame.update` after `set_index` aligns
event rows to product rows by the string-cast key, overwrites only with
non-NA values, and touches only columns the products table already has —
here only `quantidadeEstoque`.  `update` raises on duplicate event keys, so
the theorems hypothesise they are distinct; the column reordering done by
`set_index`/`reset_index` is not modelled (claims read fields by name). -/
def patchEstoqueRow (cols : List String) (evs : List Row) (p : Row) : Row :=
  match List.find? (fun e2 => valueAsStr (getCell e2 "codigoProduto") =
      valueAsStr (getCell p "codigo")) evs with
  | some e =>
    if cols.contains "quantidadeEstoque" ∧ getCell e "quantidadeEstoque" ≠ Value.nan then
      setCell (setCell p "codigo" (valueAsStr (getCell p "codigo"))) "quantidadeEstoque"
        (getCell e "quantidadeEstoque")
    else setCell p "codigo" (valueAsStr (getCell p "codigo"))
  | none => setCell p "codigo" (valueAsStr (getCell p "codigo"))

def sincronizarEstoque (produtos : DataFrame) (dadosEstoque : Option (List Row)) :
    DataFrame :=
  if (optList dadosEstoque).isEmpty then produtos
  else if produtos.rows.isEmpty then produtos
  else ⟨produtos.cols,
        List.map (patchEstoqueRow produtos.cols (optList dadosEstoque)) produtos.rows⟩

/-- The SQLite database: named tables.  Table presence is what
`pd.read_sql_table` distinguishes (a missing table raises `ValueError`). -/
abbrev Database : Type := List (String × DataFrame)

/-- Model of `pd.read_sql_table`, as presence-aware lookup. -/
def readTable? (db : Database) (nome : String) : Option DataFrame :=
  (List.find? (fun kv => kv.1 = nome) db).map Prod.snd

/-- Model of `DROP TABLE IF EXISTS nome`. -/
def dropTable (db : Database) (nome : String) : Database :=
  List.filter (fun kv => ¬ kv.1 = nome) db

/-- Model of `to_sql` in replace mode for a non-empty DataFrame. -/
def setTable (db : Database) (nome : String) (df : DataFrame) : Database :=
  dropTable db nome ++ [(nome, df)]

/-- Model of `_escrever_para_db` in replace mode (lines 67–101): an empty DataFrame
DROPs the destination table instead of writing zero rows; otherwise the
table is replaced wholesale. -/
def escreverParaDbReplace (db : Database) (df : DataFrame) (nome : String) : Database :=
  if df.rows.isEmpty then dropTable db nome else setTable db nome df

/-- Model of `processar_e_salvar_dados_analiticos` (lines 512–621).  The three raw
tables are read inside one `try`: a missing table raises `ValueError` and
the function returns without writing anything.  An empty sales table
replace-writes an empty DataFrame to `vendas_processadas`, which drops it.
The decode → explode → join → derive → sign-correct transformation of a
non-empty sales table (lines 539–617) is passed in as a parameter: the
claims settled here hold for every such transformation, so its internals
are not modelled. -/
def processarESalvarDadosAnaliticos
    (enrich : DataFrame → DataFrame → DataFrame → DataFrame) (db : Database) : Database :=
  match readTable? db "vendas", readTable? db "vendedores", readTable? db "produtos" with
  | some dfVendas, some dfVendedores, some dfProdutos =>
    if dfVendas.rows.isEmpty then escreverParaDbReplace db emptyDF "vendas_processadas"
    else escreverParaDbReplace db (enrich dfVendas dfVendedores dfProdutos) "vendas_processadas"
  | _, _, _ => db

/-! Section: Lemmas about cells and rows -/

theorem getCell_cons (kv : String × Value) (r : Row) (c : String) :
    getCell (kv :: r) c = if kv.1 = c then kv.2 else getCell r c := by
  unfold getCell
  by_cases h : kv.1 = c
  · rw [List.find?_cons_of_pos _ (by simpa using h)]
    simp [h]
  · rw [List.find?_cons_of_neg _ (by simpa using h)]
    simp [h]

theorem getCell_eq_nan_of_not_mem (r : Row) (c : String) (h : c ∉ rowKeys r) :
    getCell r c = Value.nan := by
  induction r with
  | nil => rfl
  | cons kv rs ih =>
    simp only [rowKeys, List.map_cons, List.mem_cons, not_or] at h
    rw [getCell_cons, if_neg (fun hk => h.1 hk.symm)]
    exact ih h.2

theorem mem_keys_of_getCell_ne_nan (r : Row) (c : String) (h : getCell r c ≠ Value.nan) :
    c ∈ rowKeys r := by
  by_contra hm
  exact h (getCell_eq_nan_of_not_mem r c hm)

theorem getCell_map_update_self (r : Row) (c : String) (v : Value) :
    getCell (List.map (fun kv => if kv.1 = c then (c, v) else kv) r) c =
      if List.any r (fun kv => kv.1 = c) then v else Value.nan := by
  induction r with
  | nil => rfl
  | cons kv rs ih =>
    by_cases hk : kv.1 = c
    · simp [getCell_cons, hk]
    · simp only [List.map_cons, if_neg hk, getCell_cons, List.any_cons]
      rw [ih]
      by_cases hAny : (rs.any fun kv => decide (kv.1 = c)) = true
      · simp [hAny]
      · rw [Bool.not_eq_true] at hAny
        simp [hAny, hk]

theorem getCell_map_update_ne (r : Row) (c c' : String) (v : Value) (h : c' ≠ c) :
    getCell (List.map (fun kv => if kv.1 = c then (c, v) else kv) r) c' =
      getCell r c' := by
  induction r with
  | nil => rfl
  | cons kv rs ih =>
    by_cases hk : kv.1 = c
    · rw [List.map_cons, if_pos hk, getCell_cons, getCell_cons]
      rw [if_neg (fun hc => h hc.symm)]
      rw [if_neg (fun hc => h (hk.symm.trans hc).symm)]
      exact ih
    · rw [List.map_cons, if_neg hk, getCell_cons, getCell_cons, ih]

theorem getCell_append (r1 r2 : Row) (c : String) :
    getCell (r1 ++ r2) c =
      match List.find? (fun kv => kv.1 = c) r1 with
      | some kv => kv.2
      | none => getCell r2 c := by
  unfold getCell
  rw [List.find?_append]
  cases List.find? (fun kv => decide (kv.1 = c)) r1 <;> simp [Option.or]

theorem getCell_setCell_eq (r : Row) (c : String) (v : Value) :
    getCell (setCell r c v) c = v := by
  unfold setCell
  by_cases ha : List.any r (fun kv => decide (kv.1 = c)) = true
  · rw [if_pos ha]
    rw [getCell_map_update_self, if_pos ha]
  · rw [if_neg ha]
    rw [getCell_append]
    have hf : List.find? (fun kv => decide (kv.1 = c)) r = none := by
      rw [List.find?_eq_none]
      intro kv hkv hp
      exact ha (List.any_eq_true.mpr ⟨kv, hkv, hp⟩)
    rw [hf]
    simp [getCell_cons]

theorem getCell_setCell_ne (r : Row) (c c' : String) (v : Value) (h : c' ≠ c) :
    getCell (setCell r c v) c' = getCell r c' := by
  unfold setCell
  by_cases ha : List.any r (fun kv => decide (kv.1 = c)) = true
  · rw [if_pos ha]
    exact getCell_map_update_ne r c c' v h
  · rw [if_neg ha]
    rw [getCell_append]
    cases hf : List.find? (fun kv => decide (kv.1 = c')) r with
    | some kv =>
      unfold getCell
      rw [hf]
    | none =>
      unfold getCell
      rw [hf]
      have hcc : ¬ c = c' := fun hc => h hc.symm
      simp [hcc]

/-! Section: Lemmas about dedupLast, concatSafe and colsUnion -/

theorem mem_of_mem_dedupLast (k : String) (rs : List Row) (r : Row)
    (h : r ∈ dedupLast k rs) : r ∈ rs := by
  induction rs with
  | nil => exact absurd h (by simp [dedupLast])
  | cons r0 rs ih =>
    simp only [dedupLast] at h
    by_cases hA : (rs.any fun r2 => decide (getCell r2 k = getCell r0 k)) = true
    · rw [if_pos hA] at h
      exact List.mem_cons_of_mem _ (ih h)
    · rw [if_neg hA] at h
      rcases List.mem_cons.mp h with h1 | h2
      · exact h1 ▸ List.mem_cons_self _ _
      · exact List.mem_cons_of_mem _ (ih h2)

theorem dedupLast_ne_nil (k : String) (rs : List Row) (h : rs ≠ []) :
    dedupLast k rs ≠ [] := by
  induction rs with
  | nil => exact absurd rfl h
  | cons r0 rs ih =>
    simp only [dedupLast]
    by_cases hA : (rs.any fun r2 => decide (getCell r2 k = getCell r0 k)) = true
    · rw [if_pos hA]
      rcases List.any_eq_true.mp hA with ⟨x, hx, _⟩
      rcases rs with _ | ⟨y, ys⟩
      · cases hx
      · exact ih (by simp)
    · rw [if_neg hA]
      simp

theorem dedupLast_dedupLast_append (k : String) (xs ys : List Row) :
    dedupLast k (dedupLast k xs ++ ys) = dedupLast k (xs ++ ys) := by
  induction xs with
  | nil => rfl
  | cons x xs ih =>
    by_cases hA : (xs.any fun r2 => decide (getCell r2 k = getCell x k)) = true
    · have hA2 : ((xs ++ ys).any fun r2 => decide (getCell r2 k = getCell x k)) = true := by
        rw [List.any_append, hA, Bool.true_or]
      simp only [dedupLast, List.cons_append, List.append_eq]
      rw [if_pos hA, if_pos hA2, ih]
    · have hD : ¬ ((dedupLast k xs).any fun r2 => decide (getCell r2 k = getCell x k)) = true := by
        intro htrue
        rcases List.any_eq_true.mp htrue with ⟨r2, hr2, hpk⟩
        exact hA (List.any_eq_true.mpr ⟨r2, mem_of_mem_dedupLast k xs r2 hr2, hpk⟩)
      by_cases hY : (ys.any fun r2 => decide (getCell r2 k = getCell x k)) = true
      · have h1 : ((dedupLast k xs ++ ys).any fun r2 => decide (getCell r2 k = getCell x k)) = true := by
          rw [List.any_append, hY, Bool.or_true]
        have h2 : ((xs ++ ys).any fun r2 => decide (getCell r2 k = getCell x k)) = true := by
          rw [List.any_append, hY, Bool.or_true]
        simp only [dedupLast, List.cons_append, List.append_eq]
        rw [if_neg hA, List.cons_append]
        simp only [dedupLast, List.append_eq]
        rw [if_pos h1, if_pos h2, ih]
      · have h1 : ¬ ((dedupLast k xs ++ ys).any fun r2 => decide (getCell r2 k = getCell x k)) = true := by
          rw [List.any_append]
          intro hor
          rcases Bool.or_eq_true_iff.mp hor with hl | hr
          · exact hD hl
          · exact hY hr
        have h2 : ¬ ((xs ++ ys).any fun r2 => decide (getCell r2 k = getCell x k)) = true := by
          rw [List.any_append]
          intro hor
          rcases Bool.or_eq_true_iff.mp hor with hl | hr
          · exact hA hl
          · exact hY hr
        simp only [dedupLast, List.cons_append, List.append_eq]
        rw [if_neg hA, List.cons_append]
        simp only [dedupLast, List.append_eq]
        rw [if_neg h1, if_neg h2, ih]

theorem dedupLast_idem (k : String) (xs : List Row) :
    dedupLast k (dedupLast k xs) = dedupLast k xs := by
  have h := dedupLast_dedupLast_append k xs []
  simpa using h

theorem filter_dedupLast (k : String) (p : Row → Bool)
    (hp : ∀ r1 r2 : Row, getCell r1 k = getCell r2 k → p r1 = p r2) (rs : List Row) :
    List.filter p (dedupLast k rs) = dedupLast k (List.filter p rs) := by
  induction rs with
  | nil => rfl
  | cons r rs ih =>
    by_cases hA : (rs.any fun r2 => decide (getCell r2 k = getCell r k)) = true
    · simp only [dedupLast]
      rw [if_pos hA, List.filter_cons]
      by_cases hpr : p r = true
      · rw [if_pos hpr]
        have hA2 : ((List.filter p rs).any fun r2 => decide (getCell r2 k = getCell r k)) = true := by
          rcases List.any_eq_true.mp hA with ⟨r2, hr2, hpk⟩
          have hkey : getCell r2 k = getCell r k := of_decide_eq_true hpk
          exact List.any_eq_true.mpr
            ⟨r2, List.mem_filter.mpr ⟨hr2, (hp r2 r hkey).trans hpr⟩, hpk⟩
        simp only [dedupLast]
        rw [if_pos hA2]
        exact ih
      · rw [if_neg hpr]
        exact ih
    · simp only [dedupLast]
      rw [if_neg hA, List.filter_cons, List.filter_cons]
      by_cases hpr : p r = true
      · rw [if_pos hpr, if_pos hpr]
        have hA2 : ¬ ((List.filter p rs).any fun r2 => decide (getCell r2 k = getCell r k)) = true := by
          intro htrue
          rcases List.any_eq_true.mp htrue with ⟨r2, hr2, hpk⟩
          exact hA (List.any_eq_true.mpr ⟨r2, (List.mem_filter.mp hr2).1, hpk⟩)
        simp only [dedupLast]
        rw [if_neg hA2, ih]
      · rw [if_neg hpr, if_neg hpr]
        exact ih

theorem nodup_keys_dedupLast (k : String) (rs : List Row) :
    (List.map (fun r => getCell r k) (dedupLast k rs)).Nodup := by
  induction rs with
  | nil => simp [dedupLast]
  | cons r rs ih =>
    simp only [dedupLast]
    by_cases hA : (rs.any fun r2 => decide (getCell r2 k = getCell r k)) = true
    · rw [if_pos hA]
      exact ih
    · rw [if_neg hA, List.map_cons]
      refine List.nodup_cons.mpr ⟨?_, ih⟩
      intro hmem
      rcases List.mem_map.mp hmem with ⟨r2, hr2, hkey⟩
      exact hA (List.any_eq_true.mpr
        ⟨r2, mem_of_mem_dedupLast k rs r2 hr2, decide_eq_true hkey⟩)

theorem concatSafe_rows (df1 df2 : DataFrame) :
    (concatSafe df1 df2).rows = df1.rows ++ df2.rows := by
  unfold concatSafe
  by_cases h1 : df1.rows.isEmpty = true
  · rw [if_pos h1]
    rw [List.isEmpty_iff] at h1
    rw [h1, List.nil_append]
  · rw [if_neg h1]
    by_cases h2 : df2.rows.isEmpty = true
    · rw [if_pos h2]
      rw [List.isEmpty_iff] at h2
      rw [h2, List.append_nil]
    · rw [if_neg h2]

theorem mem_colsUnion (c : String) (c1 c2 : List String) :
    c ∈ colsUnion c1 c2 ↔ c ∈ c1 ∨ c ∈ c2 := by
  unfold colsUnion
  simp only [List.mem_append, List.mem_filter, decide_eq_true_eq, List.elem_iff]
  tauto

theorem colsUnion_absorb_right (a b : List String) :
    colsUnion (colsUnion a b) b = colsUnion a b := by
  have hnil : List.filter (fun c => ¬ (colsUnion a b).contains c) b = [] := by
    rw [List.filter_eq_nil_iff]
    intro c hc
    simp only [decide_eq_true_eq, not_not, List.elem_iff]
    exact (mem_colsUnion c a b).mpr (Or.inr hc)
  show colsUnion a b ++ List.filter (fun c => ¬ (colsUnion a b).contains c) b = colsUnion a b
  rw [hnil, List.append_nil]

theorem filter_idem {α : Type} (p : α → Bool) (l : List α) :
    List.filter p (List.filter p l) = List.filter p l :=
  List.filter_eq_self.mpr (fun _x hx => (List.mem_filter.mp hx).2)

/-! Section: Characterization of the sign-flip loop and the status helpers -/

theorem negateCol_eq_map (c : String) (df : DataFrame) :
    negateCol c df = ⟨df.cols, List.map (fun r => negRowStep df.cols r c) df.rows⟩ := by
  unfold negateCol negRowStep
  by_cases h : df.cols.contains c = true
  · rw [if_pos h]
    simp only [if_pos h]
  · rw [if_neg h]
    simp only [if_neg h, List.map_id']

theorem negFold_eq_map (cs : List String) (df : DataFrame) :
    List.foldl (fun acc c => negateCol c acc) df cs =
      ⟨df.cols, List.map (fun r => List.foldl (negRowStep df.cols) r cs) df.rows⟩ := by
  induction cs generalizing df with
  | nil => simp [List.map_id']
  | cons c cs ih =>
    rw [List.foldl_cons, negateCol_eq_map, ih]
    simp only [List.map_map]
    rfl

theorem negateCols_eq_map (df : DataFrame) :
    negateCols df =
      ⟨df.cols, List.map (fun r => List.foldl (negRowStep df.cols) r colsInverter) df.rows⟩ :=
  negFold_eq_map colsInverter df

theorem getCell_negRowFold (cols : List String) :
    ∀ (cs : List String), cs.Nodup → ∀ (r : Row) (c : String),
      getCell (List.foldl (negRowStep cols) r cs) c =
        if c ∈ cs ∧ cols.contains c = true then
          Value.num (toNumericFill0 (getCell r c) * (-1))
        else getCell r c := by
  intro cs
  induction cs with
  | nil =>
    intro _ r c
    simp
  | cons c0 cs ih =>
    intro hnd r c
    rw [List.foldl_cons, ih (List.nodup_cons.mp hnd).2]
    by_cases hc : c = c0
    · subst hc
      have hno : c ∉ cs := (List.nodup_cons.mp hnd).1
      rw [if_neg (fun hm => hno hm.1)]
      unfold negRowStep
      by_cases hcol : cols.contains c = true
      · rw [if_pos hcol, if_pos ⟨List.mem_cons_self c cs, hcol⟩, getCell_setCell_eq]
      · rw [if_neg hcol, if_neg (fun hm => hcol hm.2)]
    · have hgc : getCell (negRowStep cols r c0) c = getCell r c := by
        unfold negRowStep
        by_cases hcol : cols.contains c0 = true
        · rw [if_pos hcol]
          exact getCell_setCell_ne r c0 c _ hc
        · rw [if_neg hcol]
      rw [hgc]
      by_cases hm : c ∈ cs ∧ cols.contains c = true
      · rw [if_pos hm, if_pos ⟨List.mem_cons_of_mem c0 hm.1, hm.2⟩]
      · rw [if_neg hm,
          if_neg (fun hm2 => hm ⟨(List.mem_cons.mp hm2.1).resolve_left hc, hm2.2⟩)]

theorem colsInverter_nodup : colsInverter.Nodup := by decide

theorem numeroNota_not_mem_colsInverter : "numeroNota" ∉ colsInverter := by decide

theorem status_not_mem_colsInverter : "status" ∉ colsInverter := by decide

/-- Every row of `devolvidasDF dfCanc` is a transformed cancellation row with
the same natural key. -/
theorem devolvidasDF_rows_key (dfCanc : DataFrame) (r' : Row)
    (h : r' ∈ (devolvidasDF dfCanc).rows) :
    ∃ r ∈ dfCanc.rows, getCell r' "numeroNota" = getCell r "numeroNota" := by
  unfold devolvidasDF setColumn at h
  rw [negateCols_eq_map] at h
  simp only [List.map_map] at h
  rcases List.mem_map.mp h with ⟨r, hr, rfl⟩
  have hr2 : r ∈ dfCanc.rows := by
    have := List.mem_filter.mp hr
    exact this.1
  refine ⟨r, hr2, ?_⟩
  show getCell
    (setCell (List.foldl (negRowStep _) r colsInverter) "status" (Value.str "DEVOLUÇÃO"))
    "numeroNota" = getCell r "numeroNota"
  rw [getCell_setCell_ne _ _ _ _ (by decide)]
  rw [getCell_negRowFold _ colsInverter colsInverter_nodup]
  rw [if_neg (fun hm => numeroNota_not_mem_colsInverter hm.1)]

/-- Every row of `excluidasDF dfCanc` is a transformed cancellation row with
the same natural key. -/
theorem excluidasDF_rows_key (dfCanc : DataFrame) (r' : Row)
    (h : r' ∈ (excluidasDF dfCanc).rows) :
    ∃ r ∈ dfCanc.rows, getCell r' "numeroNota" = getCell r "numeroNota" := by
  unfold excluidasDF setColumn at h
  rcases List.mem_map.mp h with ⟨r, hr, rfl⟩
  have hr2 : r ∈ dfCanc.rows := (List.mem_filter.mp hr).1
  exact ⟨r, hr2, getCell_setCell_ne _ _ _ _ (by decide)⟩

/-- Rows reaching the reconciled set come either from the base set or from a
cancellation row whose natural key they share. -/
theorem cancelProcessado_rows_mem (base dfCanc : DataFrame) (r' : Row)
    (h : r' ∈ (cancelProcessado base dfCanc).rows) :
    r' ∈ base.rows ∨ ∃ r ∈ dfCanc.rows, getCell r' "numeroNota" = getCell r "numeroNota" := by
  unfold cancelProcessado at h
  by_cases hg : (dfCanc.rows.isEmpty = true ∨ ¬ dfCanc.cols.contains "tipoCancelamento" = true)
  · rw [if_pos hg] at h
    exact Or.inl h
  · rw [if_neg hg] at h
    simp only at h
    by_cases hE : (filterEq dfCanc "tipoCancelamento" (Value.str "E")).rows.isEmpty = true
    · rw [if_pos hE] at h
      by_cases hD : (filterEq dfCanc "tipoCancelamento" (Value.str "D")).rows.isEmpty = true
      · rw [if_pos hD] at h
        exact Or.inl h
      · rw [if_neg hD] at h
        rw [concatSafe_rows] at h
        rcases List.mem_append.mp h with h1 | h2
        · exact Or.inl h1
        · exact Or.inr (devolvidasDF_rows_key dfCanc r' h2)
    · rw [if_neg hE] at h
      rw [concatSafe_rows] at h
      rcases List.mem_append.mp h with h1 | h2
      · by_cases hD : (filterEq dfCanc "tipoCancelamento" (Value.str "D")).rows.isEmpty = true
        · rw [if_pos hD] at h1
          exact Or.inl h1
        · rw [if_neg hD] at h1
          rw [concatSafe_rows] at h1
          rcases List.mem_append.mp h1 with h3 | h4
          · exact Or.inl h3
          · exact Or.inr (devolvidasDF_rows_key dfCanc r' h4)
      · exact Or.inr (excluidasDF_rows_key dfCanc r' h2)

/-- Lemma: `fillStatusOk` keeps every column other than `status` intact, rowwise. -/
theorem fillStatusOk_rows_mem (df : DataFrame) (r' : Row)
    (h : r' ∈ (fillStatusOk df).rows) (c : String) (hc : c ≠ "status") :
    ∃ r ∈ df.rows, getCell r' c = getCell r c := by
  unfold fillStatusOk at h
  by_cases hcol : df.cols.contains "status" = true
  · rw [if_pos hcol] at h
    rcases List.mem_map.mp h with ⟨r, hr, rfl⟩
    refine ⟨r, hr, ?_⟩
    by_cases hnan : getCell r "status" = Value.nan
    · rw [if_pos hnan]
      exact getCell_setCell_ne r "status" c _ hc
    · rw [if_neg hnan]
  · rw [if_neg hcol] at h
    exact ⟨r', h, rfl⟩

/-! Section: Idempotence machinery for the incremental sales sync -/

theorem concatSafe_of_left_nil (df1 df2 : DataFrame) (h : df1.rows = []) :
    concatSafe df1 df2 = df2 := by
  unfold concatSafe
  rw [if_pos (by rw [h]; rfl)]

theorem concatSafe_of_right_nil (df1 df2 : DataFrame) (h1 : df1.rows ≠ [])
    (h2 : df2.rows = []) : concatSafe df1 df2 = df1 := by
  unfold concatSafe
  rw [if_neg (fun he => h1 (List.isEmpty_iff.mp he)), if_pos (by rw [h2]; rfl)]

theorem concatSafe_of_ne_nil (df1 df2 : DataFrame) (h1 : df1.rows ≠ [])
    (h2 : df2.rows ≠ []) :
    concatSafe df1 df2 = ⟨colsUnion df1.cols df2.cols, df1.rows ++ df2.rows⟩ := by
  unfold concatSafe
  rw [if_neg (fun he => h1 (List.isEmpty_iff.mp he)),
    if_neg (fun he => h2 (List.isEmpty_iff.mp he))]

theorem vendasIds_ne_nil (A C : DataFrame)
    (h : ¬ (A.rows.isEmpty = true ∧ C.rows.isEmpty = true)) : vendasIds A C ≠ [] := by
  unfold vendasIds
  intro hnil
  rcases List.append_eq_nil.mp hnil with ⟨h1, h2⟩
  by_cases hA : A.rows.isEmpty = true
  · by_cases hC : C.rows.isEmpty = true
    · exact h ⟨hA, hC⟩
    · rw [if_neg hC] at h2
      exact hC (by rw [List.map_eq_nil_iff.mp h2]; rfl)
  · rw [if_neg hA] at h1
    exact hA (by rw [List.map_eq_nil_iff.mp h1]; rfl)

/-- Every row written by the incremental sales run carries a key from the
arriving id set. -/
theorem vendasNovos_rows_key (A C : DataFrame) (r' : Row)
    (h : r' ∈ (vendasNovos A C).rows) :
    (vendasIds A C).contains (getCell r' "numeroNota") = true := by
  unfold vendasNovos at h
  rcases cancelProcessado_rows_mem _ _ _ h with h1 | ⟨r, hr, hkey⟩
  · by_cases hA : A.rows.isEmpty = true
    · rw [if_pos hA] at h1
      cases h1
    · rw [if_neg hA, concatSafe_of_left_nil emptyDF _ rfl] at h1
      rcases fillStatusOk_rows_mem A r' h1 "numeroNota" (by decide) with ⟨r, hr, hkey⟩
      simp only [List.elem_iff]
      unfold vendasIds
      apply List.mem_append.mpr
      left
      rw [if_neg hA, hkey]
      exact List.mem_map_of_mem _ hr
  · simp only [List.elem_iff]
    unfold vendasIds
    apply List.mem_append.mpr
    right
    have hC : ¬ C.rows.isEmpty = true := by
      intro he
      rw [List.isEmpty_iff.mp he] at hr
      cases hr
    rw [if_neg hC, hkey]
    exact List.mem_map_of_mem _ hr

theorem core_idem_abstract (k : String) (ids : List Value) (N I : DataFrame)
    (hN : ∀ r ∈ N.rows, ids.contains (getCell r k) = true)
    (hI : List.filter (fun r => ¬ ids.contains (getCell r k)) I.rows = I.rows) :
    (⟨(concatSafe ⟨(concatSafe I N).cols,
        List.filter (fun r => ¬ ids.contains (getCell r k))
          (dedupLast k (concatSafe I N).rows)⟩ N).cols,
      dedupLast k (concatSafe ⟨(concatSafe I N).cols,
        List.filter (fun r => ¬ ids.contains (getCell r k))
          (dedupLast k (concatSafe I N).rows)⟩ N).rows⟩ : DataFrame) =
    ⟨(concatSafe I N).cols, dedupLast k (concatSafe I N).rows⟩ := by
  have hp : ∀ r1 r2 : Row, getCell r1 k = getCell r2 k →
      (fun r => (¬ ids.contains (getCell r k) : Bool)) r1 =
      (fun r => (¬ ids.contains (getCell r k) : Bool)) r2 := by
    intro r1 r2 hk
    exact congrArg (fun v => (decide ¬ (ids.contains v = true) : Bool)) hk
  have hNnil : List.filter (fun r => ¬ ids.contains (getCell r k)) N.rows = [] := by
    rw [List.filter_eq_nil_iff]
    intro r hr
    simp only [decide_eq_true_eq]
    exact not_not_intro (hN r hr)
  have hFilt : List.filter (fun r => ¬ ids.contains (getCell r k))
      (dedupLast k (concatSafe I N).rows) = dedupLast k I.rows := by
    rw [concatSafe_rows, filter_dedupLast k _ hp, List.filter_append, hNnil,
      List.append_nil, hI]
  rw [hFilt]
  by_cases hIe : I.rows = []
  · have hInil : dedupLast k I.rows = [] := by rw [hIe]; rfl
    rw [concatSafe_of_left_nil I N hIe]
    rw [concatSafe_of_left_nil _ N hInil]
  · by_cases hNe : N.rows = []
    · rw [concatSafe_of_right_nil I N hIe hNe]
      rw [concatSafe_of_right_nil _ N (dedupLast_ne_nil k I.rows hIe) hNe]
      rw [dedupLast_idem]
    · rw [concatSafe_of_ne_nil I N hIe hNe]
      rw [concatSafe_of_ne_nil _ N (dedupLast_ne_nil k I.rows hIe) hNe]
      simp only []
      rw [colsUnion_absorb_right, dedupLast_dedupLast_append]

theorem vendasRunCore_idem (existente A C : DataFrame)
    (h : ¬ (A.rows.isEmpty = true ∧ C.rows.isEmpty = true)) :
    vendasRunCore (vendasRunCore existente A C) A C = vendasRunCore existente A C := by
  have hids : vendasIds A C ≠ [] := vendasIds_ne_nil A C h
  have hRem : ∀ df : DataFrame, removerIds "numeroNota" df (vendasIds A C) =
      ⟨df.cols, List.filter (fun r => ¬ (vendasIds A C).contains (getCell r "numeroNota"))
        df.rows⟩ := by
    intro df
    unfold removerIds
    rw [if_neg (fun he => hids (List.isEmpty_iff.mp he))]
  have hI : List.filter (fun r => ¬ (vendasIds A C).contains (getCell r "numeroNota"))
      (removerIds "numeroNota" existente (vendasIds A C)).rows =
      (removerIds "numeroNota" existente (vendasIds A C)).rows := by
    rw [hRem existente]
    exact filter_idem _ _
  have hN : ∀ r ∈ (vendasNovos A C).rows,
      (vendasIds A C).contains (getCell r "numeroNota") = true :=
    fun r hr => vendasNovos_rows_key A C r hr
  unfold vendasRunCore
  rw [hRem]
  exact core_idem_abstract "numeroNota" (vendasIds A C) (vendasNovos A C)
    (removerIds "numeroNota" existente (vendasIds A C)) hN hI

/-! Section: Lemmas about the historical backfill loop -/

/-- A primary-fetch failure at the current window aborts immediately,
leaving checkpoint and table exactly as they were when the window began;
the request of the failing window is the only one issued from here on. -/
theorem backfillVendasLoop_abort (windowDays : ℕ) (endDate : Int)
    (fetchVendas fetchCancel : Int → Option (List Row))
    (cur : Int) (ckpt : Option Int) (table : DataFrame)
    (h0 : windowDays ≠ 0) (hle : cur ≤ endDate) (hf : fetchVendas cur = none) :
    backfillVendasLoop windowDays endDate fetchVendas fetchCancel cur ckpt table =
      ⟨ckpt, table, [cur]⟩ := by
  rw [backfillVendasLoop]
  rw [dif_neg h0, dif_pos hle, hf]

/-- Unfolding one successfully fetched window of the loop. -/
theorem backfillVendasLoop_step (windowDays : ℕ) (endDate : Int)
    (fetchVendas fetchCancel : Int → Option (List Row))
    (cur : Int) (ckpt : Option Int) (table : DataFrame) (dados : List Row)
    (h0 : windowDays ≠ 0) (hle : cur ≤ endDate) (hf : fetchVendas cur = some dados) :
    backfillVendasLoop windowDays endDate fetchVendas fetchCancel cur ckpt table =
      ⟨(backfillVendasLoop windowDays endDate fetchVendas fetchCancel
          (cur + (windowDays : Int)) (some cur)
          (windowTable table (reconcileVendas dados (fetchCancel cur)))).ckpt,
       (backfillVendasLoop windowDays endDate fetchVendas fetchCancel
          (cur + (windowDays : Int)) (some cur)
          (windowTable table (reconcileVendas dados (fetchCancel cur)))).table,
       cur :: (backfillVendasLoop windowDays endDate fetchVendas fetchCancel
          (cur + (windowDays : Int)) (some cur)
          (windowTable table (reconcileVendas dados (fetchCancel cur)))).fetched⟩ := by
  rw [backfillVendasLoop]
  rw [dif_neg h0, dif_pos hle, hf]

/-- Lemma: `fillStatusOk` does not change the number of rows. -/
theorem fillStatusOk_rows_length (df : DataFrame) :
    (fillStatusOk df).rows.length = df.rows.length := by
  unfold fillStatusOk
  by_cases h : df.cols.contains "status" = true
  · rw [if_pos h]
    simp
  · rw [if_neg h]

/-- Every window the loop fetches starts at or after the loop start date. -/
theorem backfillVendasLoop_fetched_ge (windowDays : ℕ) (endDate : Int)
    (fetchVendas fetchCancel : Int → Option (List Row)) :
    ∀ (n : ℕ) (cur : Int), (endDate + 1 - cur).toNat = n →
      ∀ (ckpt : Option Int) (table : DataFrame) (s : Int),
        s ∈ (backfillVendasLoop windowDays endDate fetchVendas fetchCancel
          cur ckpt table).fetched → cur ≤ s := by
  intro n
  induction n using Nat.strong_induction_on with
  | _ n ih =>
    intro cur hcur ckpt table s hs
    rw [backfillVendasLoop] at hs
    by_cases h0 : windowDays = 0
    · rw [dif_pos h0] at hs
      cases hs
    · rw [dif_neg h0] at hs
      by_cases hle : cur ≤ endDate
      · rw [dif_pos hle] at hs
        cases hfv : fetchVendas cur with
        | none =>
          rw [hfv] at hs
          rw [List.mem_singleton.mp hs]
        | some dados =>
          rw [hfv] at hs
          rcases List.mem_cons.mp hs with h1 | h2
          · exact le_of_eq h1.symm
          · have hwpos : 0 < windowDays := Nat.pos_of_ne_zero h0
            have hlt : (endDate + 1 - (cur + (windowDays : Int))).toNat < n := by
              omega
            have hge := ih _ hlt (cur + (windowDays : Int)) rfl (some cur) _ s h2
            omega
      · rw [dif_neg hle] at hs
        cases hs

/-! Section: Generic helpers -/

theorem forall2_map_self {α β : Type} (R : α → β → Prop) (f : α → β) (l : List α)
    (h : ∀ a ∈ l, R a (f a)) : List.Forall₂ R l (List.map f l) := by
  induction l with
  | nil => exact List.Forall₂.nil
  | cons a as ih =>
    exact List.Forall₂.cons (h a (List.mem_cons_self a as))
      (ih (fun x hx => h x (List.mem_cons_of_mem _ hx)))

theorem colsUnion_nil_left (c2 : List String) : colsUnion [] c2 = c2 := by
  unfold colsUnion
  simp

/-! Section: Lemmas about Python dict update (HTTP headers) -/

theorem headerLookup_dictInsert_eq (d : List (String × String)) (k v : String) :
    headerLookup (dictInsert d k v) k = some v := by
  unfold dictInsert headerLookup
  by_cases ha : List.any d (fun kv => decide (kv.1 = k)) = true
  · rw [if_pos ha]
    induction d with
    | nil => simp at ha
    | cons kv rs ih =>
      by_cases hk : kv.1 = k
      · simp [List.find?_cons_of_pos, hk]
      · rw [List.map_cons, if_neg hk, List.find?_cons_of_neg _ (by simpa using hk)]
        exact ih (by simpa [hk] using ha)
  · rw [if_neg ha]
    have hf : List.find? (fun kv => decide (kv.1 = k)) d = none := by
      rw [List.find?_eq_none]
      intro kv hkv hp
      exact ha (List.any_eq_true.mpr ⟨kv, hkv, hp⟩)
    rw [List.find?_append, hf]
    simp

theorem find_key_map_update (d : List (String × String)) (k v key : String)
    (h : key ≠ k) :
    List.find? (fun kv => kv.1 = key)
      (List.map (fun kv => if kv.1 = k then (k, v) else kv) d) =
    List.find? (fun kv => kv.1 = key) d := by
  induction d with
  | nil => rfl
  | cons kv rs ih =>
    rw [List.map_cons]
    by_cases hk : kv.1 = k
    · rw [if_pos hk,
        List.find?_cons_of_neg _ (by simpa using fun hc : k = key => h hc.symm),
        List.find?_cons_of_neg _ (by simpa using fun hc : kv.1 = key => h (hk.symm.trans hc).symm)]
      exact ih
    · rw [if_neg hk]
      by_cases hkey : kv.1 = key
      · rw [List.find?_cons_of_pos _ (by simpa using hkey),
          List.find?_cons_of_pos _ (by simpa using hkey)]
      · rw [List.find?_cons_of_neg _ (by simpa using hkey),
          List.find?_cons_of_neg _ (by simpa using hkey)]
        exact ih

theorem headerLookup_dictInsert_ne (d : List (String × String)) (k v key : String)
    (h : key ≠ k) : headerLookup (dictInsert d k v) key = headerLookup d key := by
  unfold dictInsert headerLookup
  by_cases ha : List.any d (fun kv => decide (kv.1 = k)) = true
  · rw [if_pos ha, find_key_map_update d k v key h]
  · rw [if_neg ha, List.find?_append]
    have hlast : List.find? (fun kv => decide (kv.1 = key)) [(k, v)] = none := by
      rw [List.find?_eq_none]
      intro kv hkv hp
      rcases List.mem_singleton.mp hkv with rfl
      exact h (of_decide_eq_true hp).symm
    rw [hlast]
    cases List.find? (fun kv => decide (kv.1 = key)) d <;> simp [Option.or]

theorem headerLookup_dictUpdate_not_mem (upd : List (String × String)) :
    ∀ (d : List (String × String)) (key : String), (∀ kv ∈ upd, kv.1 ≠ key) →
      headerLookup (dictUpdate d upd) key = headerLookup d key := by
  induction upd with
  | nil => intro d key _; rfl
  | cons kv rest ih =>
    intro d key h
    unfold dictUpdate
    rw [List.foldl_cons]
    have step : headerLookup (dictUpdate (dictInsert d kv.1 kv.2) rest) key =
        headerLookup (dictInsert d kv.1 kv.2) key :=
      ih (dictInsert d kv.1 kv.2) key (fun kv2 hkv2 => h kv2 (List.mem_cons_of_mem _ hkv2))
    exact step.trans (headerLookup_dictInsert_ne d kv.1 kv.2 key
      (fun he => h kv (List.mem_cons_self kv rest) he.symm))

theorem headerLookup_dictUpdate_isSome (upd : List (String × String)) :
    ∀ (d : List (String × String)) (key : String),
      (headerLookup d key).isSome = true →
      (headerLookup (dictUpdate d upd) key).isSome = true := by
  induction upd with
  | nil => intro d key h; exact h
  | cons kv rest ih =>
    intro d key h
    unfold dictUpdate
    rw [List.foldl_cons]
    apply ih
    by_cases hk : key = kv.1
    · rw [hk, headerLookup_dictInsert_eq]
      rfl
    · rw [headerLookup_dictInsert_ne d kv.1 kv.2 key hk]
      exact h

theorem headerLookup_dictUpdate_found (upd : List (String × String)) :
    ∀ (d : List (String × String)) (key a : String),
      (List.map Prod.fst upd).Nodup → headerLookup upd key = some a →
      headerLookup (dictUpdate d upd) key = some a := by
  induction upd with
  | nil =>
    intro d key a _ h
    cases h
  | cons kv rest ih =>
    intro d key a hnd h
    unfold dictUpdate
    rw [List.foldl_cons]
    by_cases hk : kv.1 = key
    · have ha : kv.2 = a := by
        unfold headerLookup at h
        rw [List.find?_cons_of_pos _ (by simpa using hk)] at h
        simpa using h
      have hrest : ∀ kv2 ∈ rest, kv2.1 ≠ key := by
        intro kv2 hkv2 he
        have hhd : kv.1 ∉ List.map Prod.fst rest := (List.nodup_cons.mp hnd).1
        exact hhd (by rw [hk, ← he]; exact List.mem_map_of_mem _ hkv2)
      have hstep : headerLookup (dictUpdate (dictInsert d kv.1 kv.2) rest) key =
          headerLookup (dictInsert d kv.1 kv.2) key :=
        headerLookup_dictUpdate_not_mem rest (dictInsert d kv.1 kv.2) key hrest
      have hval : headerLookup (dictInsert d kv.1 kv.2) key = some a := by
        rw [← hk, headerLookup_dictInsert_eq, ha]
      exact hstep.trans hval
    · have h2 : headerLookup rest key = some a := by
        unfold headerLookup at h ⊢
        rwa [List.find?_cons_of_neg _ (by simpa using hk)] at h
      exact ih _ key a (List.nodup_cons.mp hnd).2 h2

/-! Section: Claim theorems -/

/-- Claim C2, counterexample.  The claim says a fetch failure at ANY point
in the processing of a window — primary fetch or companion cancellation
fetch — aborts without advancing the checkpoint.  Here the companion cancellation
fetch fails at every window (`fetchCancel = fun _ => none`) while the
primary fetch succeeds at window 0 and fails at window 1.  Were the claim
true, the run would abort at window 0 with the checkpoint still absent.
Instead the run treats the failed cancellation fetch as an empty
cancellation set, processes window 0, advances the checkpoint to `some 0`,
and goes on to fetch window 1 — refuting the claim. -/
theorem claim_c2_counterexample :
    (realizarCargaHistoricaVendas 0 1 1
        (fun w => if w = 0 then some [[("numeroNota", Value.str "1")]] else none)
        (fun _ => none) none emptyDF).fetched = [0, 1] ∧
    (realizarCargaHistoricaVendas 0 1 1
        (fun w => if w = 0 then some [[("numeroNota", Value.str "1")]] else none)
        (fun _ => none) none emptyDF).ckpt = some 0 ∧
    (some 0 : Option Int) ≠ none := by
  have hstep := backfillVendasLoop_step 1 1
    (fun w => if w = 0 then some [[("numeroNota", Value.str "1")]] else none)
    (fun _ => none) 0 none emptyDF [[("numeroNota", Value.str "1")]]
    (by decide) (by norm_num) (by norm_num)
  unfold realizarCargaHistoricaVendas
  rw [show resumeStart 0 1 none = 0 from rfl, hstep]
  have h01 : (0 : Int) + ((1 : ℕ) : Int) = 1 := by norm_num
  rw [h01]
  have habort := backfillVendasLoop_abort 1 1
    (fun w => if w = 0 then some [[("numeroNota", Value.str "1")]] else none)
    (fun _ => none) 1 (some 0)
    (windowTable emptyDF (reconcileVendas [[("numeroNota", Value.str "1")]]
      ((fun _ : Int => (none : Option (List Row))) 0)))
    (by decide) (by norm_num) (by norm_num)
  rw [habort]
  exact ⟨rfl, rfl, by decide⟩

/-- Claim C2, amended.  During the historical backfill, a PRIMARY-fetch
failure at a window aborts the run with the persisted checkpoint and the
table exactly as they were when that window began (and the request of that
window is the last one issued).  A companion cancellation-fetch failure
does not abort: it is processed as an empty cancellation set and the
checkpoint advances past the window. -/
theorem claim_c2_theorem (windowDays : ℕ) (endDate : Int)
    (fetchVendas fetchCancel : Int → Option (List Row))
    (cur : Int) (ckpt : Option Int) (table : DataFrame)
    (h0 : windowDays ≠ 0) (hle : cur ≤ endDate) (hf : fetchVendas cur = none) :
    backfillVendasLoop windowDays endDate fetchVendas fetchCancel cur ckpt table =
      ⟨ckpt, table, [cur]⟩ :=
  backfillVendasLoop_abort windowDays endDate fetchVendas fetchCancel cur ckpt table
    h0 hle hf

/-- Witness for C2 at a concrete input: window size 1, one window, primary
fetch failing immediately, prior checkpoint `some 5`. -/
theorem claim_c2_witness :
    (1 : ℕ) ≠ 0 ∧ (0 : Int) ≤ 0 ∧
    (fun _ : Int => (none : Option (List Row))) 0 = none ∧
    backfillVendasLoop 1 0 (fun _ => none) (fun _ => none) 0 (some 5) emptyDF =
      ⟨some 5, emptyDF, [0]⟩ :=
  ⟨by decide, by decide, rfl,
    claim_c2_theorem 1 0 (fun _ => none) (fun _ => none) 0 (some 5) emptyDF
      (by decide) (by decide) rfl⟩

/-- Claim C3.  The backfill resume point is
`checkpoint.lastCompletedDate + windowDays` when a checkpoint exists and the
configured historical start date otherwise; consequently a restart whose
checkpoint records the completed window `[D, D+windowDays-1]` starts every
window it fetches at `D + windowDays` or later, never refetching the
completed window. -/
theorem claim_c3_theorem (histStart : Int) (windowDays : ℕ) (endDate : Int)
    (fetchVendas fetchCancel : Int → Option (List Row)) (D : Int) (table : DataFrame)
    (_h0 : windowDays ≠ 0) :
    resumeStart histStart windowDays none = histStart ∧
    resumeStart histStart windowDays (some D) = D + (windowDays : Int) ∧
    ∀ s ∈ (realizarCargaHistoricaVendas histStart windowDays endDate
        fetchVendas fetchCancel (some D) table).fetched,
      D + (windowDays : Int) ≤ s := by
  refine ⟨rfl, rfl, ?_⟩
  intro s hs
  exact backfillVendasLoop_fetched_ge windowDays endDate fetchVendas fetchCancel
    _ _ rfl _ _ s hs

/-- Witness for C3 at a concrete input: windowDays 10, checkpoint date 0,
snapshot end 25. -/
theorem claim_c3_witness :
    (10 : ℕ) ≠ 0 ∧
    (resumeStart 0 10 none = 0 ∧
     resumeStart 0 10 (some 0) = 0 + ((10 : ℕ) : Int) ∧
     ∀ s ∈ (realizarCargaHistoricaVendas 0 10 25
         (fun _ => some []) (fun _ => some []) (some 0) emptyDF).fetched,
       0 + ((10 : ℕ) : Int) ≤ s) :=
  ⟨by decide,
    claim_c3_theorem 0 10 25 (fun _ => some []) (fun _ => some []) 0 emptyDF (by decide)⟩

/-- Claim C4.  The paginated fetch requests pages at increasing offsets with
fixed page size 999, accumulating results; it stops exactly when a page is
strictly shorter than 999 (success), when a page is empty (success), or
when a page fetch fails (failure propagates).  Pages of 999, 999 and 500
records yield exactly 2498 accumulated records across exactly 3 requests,
issued at offsets 0, 999 and 1998. -/
theorem claim_c4_theorem (a b c : List ℕ)
    (ha : a.length = 999) (hb : b.length = 999) (hc : c.length = 500) :
    (buscarDadosPaginados [some a, some b, some c]).1 = some (a ++ b ++ c) ∧
    (a ++ b ++ c).length = 2498 ∧
    (buscarDadosPaginados [some a, some b, some c]).2 = [0, 999, 1998] ∧
    (∀ (script : List (Option (List ℕ))) (acc : List ℕ) (off : ℕ),
      buscarDadosPaginadosAux (none :: script) acc off = (none, [off])) ∧
    (∀ (script : List (Option (List ℕ))) (acc : List ℕ) (off : ℕ),
      buscarDadosPaginadosAux (some ([] : List ℕ) :: script) acc off = (some acc, [off])) ∧
    (∀ (script : List (Option (List ℕ))) (acc p : List ℕ) (off : ℕ),
      p.length ≠ 0 → p.length < quantidadeRegistros →
      buscarDadosPaginadosAux (some p :: script) acc off = (some (acc ++ p), [off])) := by
  refine ⟨?_, ?_, ?_, ?_, ?_, ?_⟩
  · unfold buscarDadosPaginados
    simp [buscarDadosPaginadosAux, quantidadeRegistros, ha, hb, hc]
  · simp [ha, hb, hc]
  · unfold buscarDadosPaginados
    simp [buscarDadosPaginadosAux, quantidadeRegistros, ha, hb, hc]
  · intro script acc off
    rfl
  · intro script acc off
    rfl
  · intro script acc p off hne hlt
    unfold buscarDadosPaginadosAux
    rw [if_neg hne, if_pos hlt]

/-- Witness for C4 at concrete pages of lengths 999, 999 and 500. -/
theorem claim_c4_witness :
    (List.replicate 999 (0 : ℕ)).length = 999 ∧
    (List.replicate 999 (1 : ℕ)).length = 999 ∧
    (List.replicate 500 (2 : ℕ)).length = 500 ∧
    ((buscarDadosPaginados
        [some (List.replicate 999 (0 : ℕ)), some (List.replicate 999 1),
         some (List.replicate 500 2)]).1 =
      some (List.replicate 999 0 ++ List.replicate 999 1 ++ List.replicate 500 2) ∧
     (List.replicate 999 (0 : ℕ) ++ List.replicate 999 1 ++
        List.replicate 500 2).length = 2498 ∧
     (buscarDadosPaginados
        [some (List.replicate 999 (0 : ℕ)), some (List.replicate 999 1),
         some (List.replicate 500 2)]).2 = [0, 999, 1998] ∧
     (∀ (script : List (Option (List ℕ))) (acc : List ℕ) (off : ℕ),
       buscarDadosPaginadosAux (none :: script) acc off = (none, [off])) ∧
     (∀ (script : List (Option (List ℕ))) (acc : List ℕ) (off : ℕ),
       buscarDadosPaginadosAux (some ([] : List ℕ) :: script) acc off = (some acc, [off])) ∧
     (∀ (script : List (Option (List ℕ))) (acc p : List ℕ) (off : ℕ),
       p.length ≠ 0 → p.length < quantidadeRegistros →
       buscarDadosPaginadosAux (some p :: script) acc off = (some (acc ++ p), [off]))) :=
  ⟨List.length_replicate 999 0, List.length_replicate 999 1, List.length_replicate 500 2,
    claim_c4_theorem (List.replicate 999 0) (List.replicate 999 1) (List.replicate 500 2)
      (List.length_replicate 999 0) (List.length_replicate 999 1)
      (List.length_replicate 500 2)⟩

/-- Claim C5, counterexample.  The call `auth_headers.update(headers)` lets a
caller-supplied Authorization entry REPLACE the injected bearer header:
with token "T" and caller headers mapping Authorization to "X" the sent
Authorization header is "X", not "Bearer T" — refuting "caller-supplied
headers augment but never replace it". -/
theorem claim_c5_counterexample :
    headerLookup (buildHeaders "T" (some [("Authorization", "X")])) "Authorization" =
      some "X" ∧
    some "X" ≠ some ("Bearer " ++ "T") :=
  ⟨rfl, by decide⟩

/-- Claim C5, amended.  An Authorization header is present in the sent
headers of every request; caller-supplied headers are merged with
`dict.update` semantics, so for callers that do not supply an Authorization
key the injected bearer header is sent unchanged, while a caller-supplied
Authorization value replaces the injected one. -/
theorem claim_c5_theorem (token : String) (headers : Option (List (String × String))) :
    (headerLookup (buildHeaders token headers) "Authorization").isSome = true ∧
    (∀ hs : List (String × String), headers = some hs →
      (∀ kv ∈ hs, kv.1 ≠ "Authorization") →
      headerLookup (buildHeaders token headers) "Authorization" =
        some ("Bearer " ++ token)) ∧
    (∀ (hs : List (String × String)) (a : String), headers = some hs →
      (List.map Prod.fst hs).Nodup → headerLookup hs "Authorization" = some a →
      headerLookup (buildHeaders token headers) "Authorization" = some a) := by
  have hauth : headerLookup [("Authorization", "Bearer " ++ token)] "Authorization" =
      some ("Bearer " ++ token) := by
    unfold headerLookup
    rw [List.find?_cons_of_pos _ (by simp)]
    rfl
  refine ⟨?_, ?_, ?_⟩
  · cases headers with
    | none =>
      simp only [buildHeaders]
      rw [hauth]
      rfl
    | some hs =>
      simp only [buildHeaders]
      by_cases he : hs.isEmpty = true
      · rw [if_pos he, hauth]
        rfl
      · rw [if_neg he]
        exact headerLookup_dictUpdate_isSome hs _ "Authorization" (by rw [hauth]; rfl)
  · intro hs heq hnm
    subst heq
    simp only [buildHeaders]
    by_cases he : hs.isEmpty = true
    · rw [if_pos he, hauth]
    · rw [if_neg he]
      rw [headerLookup_dictUpdate_not_mem hs _ "Authorization" hnm, hauth]
  · intro hs a heq hnd hfound
    subst heq
    simp only [buildHeaders]
    by_cases he : hs.isEmpty = true
    · rw [List.isEmpty_iff.mp he] at hfound
      cases hfound
    · rw [if_neg he]
      exact headerLookup_dictUpdate_found hs _ "Authorization" a hnd hfound

/-- Witness for C5 at concrete inputs: a caller header set without an
Authorization key. -/
theorem claim_c5_witness :
    ((headerLookup (buildHeaders "tok" (some [("Accept", "json")])) "Authorization").isSome
        = true ∧
      (∀ hs : List (String × String), some [("Accept", "json")] = some hs →
        (∀ kv ∈ hs, kv.1 ≠ "Authorization") →
        headerLookup (buildHeaders "tok" (some [("Accept", "json")])) "Authorization" =
          some ("Bearer " ++ "tok")) ∧
      (∀ (hs : List (String × String)) (a : String), some [("Accept", "json")] = some hs →
        (List.map Prod.fst hs).Nodup → headerLookup hs "Authorization" = some a →
        headerLookup (buildHeaders "tok" (some [("Accept", "json")])) "Authorization" =
          some a)) :=
  claim_c5_theorem "tok" (some [("Accept", "json")])

/-- Claim C6, counterexample.  With a prior sales table already holding two
rows that share `numeroNota` "1" and an upstream answer with no changed and
no cancelled records, the incremental sync returns without writing and the
duplicate natural keys survive — refuting uniqueness "for every prior table
state and every upstream response". -/
theorem claim_c6_counterexample :
    atualizarVendasRecentes
      ⟨["numeroNota"], [[("numeroNota", Value.str "1")], [("numeroNota", Value.str "1")]]⟩
      none none =
      ⟨["numeroNota"], [[("numeroNota", Value.str "1")], [("numeroNota", Value.str "1")]]⟩ ∧
    ¬ (List.map (fun r => getCell r "numeroNota")
        (atualizarVendasRecentes
          ⟨["numeroNota"],
           [[("numeroNota", Value.str "1")], [("numeroNota", Value.str "1")]]⟩
          none none).rows).Nodup :=
  ⟨rfl, by decide⟩

/-- Claim C6, amended.  Whenever an incremental sync actually processes data
— for sales, at least one changed or cancellation record arrived; for
purchases, at least one changed record arrived — the table it writes has
pairwise-distinct natural keys (`numeroNota` for sales, `numeroNotaFiscal`
for purchases).  A run whose upstream sets are empty returns without
writing, leaving the prior table, duplicates included, untouched. -/
theorem claim_c6_theorem (existente existenteC : DataFrame)
    (dadosAlterados dadosCancelados dadosAlteradosC : Option (List Row))
    (hV : ¬ ((mkDF (optList dadosAlterados)).rows.isEmpty = true ∧
      (mkDF (optList dadosCancelados)).rows.isEmpty = true))
    (hC : optList dadosAlteradosC ≠ []) :
    (List.map (fun r => getCell r "numeroNota")
      (atualizarVendasRecentes existente dadosAlterados dadosCancelados).rows).Nodup ∧
    (List.map (fun r => getCell r "numeroNotaFiscal")
      (atualizarComprasRecentes existenteC dadosAlteradosC).rows).Nodup := by
  constructor
  · unfold atualizarVendasRecentes
    rw [if_neg hV]
    exact nodup_keys_dedupLast _ _
  · simp only [atualizarComprasRecentes]
    rw [if_neg (fun he => hC (List.isEmpty_iff.mp he))]
    exact nodup_keys_dedupLast _ _

/-- Witness for C6 at concrete inputs: one changed sale and one changed
purchase over empty prior tables. -/
theorem claim_c6_witness :
    (¬ ((mkDF (optList (some [[("numeroNota", Value.str "1")]]))).rows.isEmpty = true ∧
        (mkDF (optList (none : Option (List Row)))).rows.isEmpty = true)) ∧
    (optList (some [[("numeroNotaFiscal", Value.str "2")]]) ≠ []) ∧
    ((List.map (fun r => getCell r "numeroNota")
        (atualizarVendasRecentes emptyDF (some [[("numeroNota", Value.str "1")]])
          none).rows).Nodup ∧
     (List.map (fun r => getCell r "numeroNotaFiscal")
        (atualizarComprasRecentes emptyDF
          (some [[("numeroNotaFiscal", Value.str "2")]])).rows).Nodup) :=
  ⟨by decide, by decide,
    claim_c6_theorem emptyDF emptyDF (some [[("numeroNota", Value.str "1")]]) none
      (some [[("numeroNotaFiscal", Value.str "2")]]) (by decide) (by decide)⟩

/-- Claim C7.  The incremental sales sync is idempotent: for every existing
table state, running it twice consecutively with an identical upstream
response (same changed set and same cancellation set both times) leaves the
table after the second run identical to the table after the first. -/
theorem claim_c7_theorem (existente : DataFrame)
    (dadosAlterados dadosCancelados : Option (List Row)) :
    atualizarVendasRecentes
      (atualizarVendasRecentes existente dadosAlterados dadosCancelados)
      dadosAlterados dadosCancelados =
    atualizarVendasRecentes existente dadosAlterados dadosCancelados := by
  unfold atualizarVendasRecentes
  by_cases hBoth : ((mkDF (optList dadosAlterados)).rows.isEmpty = true ∧
      (mkDF (optList dadosCancelados)).rows.isEmpty = true)
  · simp only [if_pos hBoth]
  · simp only [if_neg hBoth]
    exact vendasRunCore_idem _ _ _ hBoth

/-- Claim C9.  If any required raw table (sales, sellers or products) is
missing, the enrichment pipeline returns without performing any write: the
database — including any previous fact table — is exactly as before. -/
theorem claim_c9_theorem (enrich : DataFrame → DataFrame → DataFrame → DataFrame)
    (db : Database)
    (h : readTable? db "vendas" = none ∨ readTable? db "vendedores" = none ∨
      readTable? db "produtos" = none) :
    processarESalvarDadosAnaliticos enrich db = db := by
  unfold processarESalvarDadosAnaliticos
  cases hv : readTable? db "vendas" with
  | none => rfl
  | some v =>
    cases hvd : readTable? db "vendedores" with
    | none => rfl
    | some vd =>
      cases hp : readTable? db "produtos" with
      | none => rfl
      | some p =>
        exfalso
        rcases h with h | h | h
        · rw [hv] at h; cases h
        · rw [hvd] at h; cases h
        · rw [hp] at h; cases h

/-- Witness for C9 at a concrete database whose sales table is missing but
whose previous fact table exists. -/
theorem claim_c9_witness :
    (readTable? [("vendedores", emptyDF), ("produtos", emptyDF),
        ("vendas_processadas", (⟨["x"], [[("x", Value.str "1")]]⟩ : DataFrame))] "vendas" = none ∨
      readTable? [("vendedores", emptyDF), ("produtos", emptyDF),
        ("vendas_processadas", (⟨["x"], [[("x", Value.str "1")]]⟩ : DataFrame))] "vendedores" = none ∨
      readTable? [("vendedores", emptyDF), ("produtos", emptyDF),
        ("vendas_processadas", (⟨["x"], [[("x", Value.str "1")]]⟩ : DataFrame))] "produtos" = none) ∧
    processarESalvarDadosAnaliticos (fun _ _ _ => emptyDF)
      [("vendedores", emptyDF), ("produtos", emptyDF),
       ("vendas_processadas", (⟨["x"], [[("x", Value.str "1")]]⟩ : DataFrame))] =
      [("vendedores", emptyDF), ("produtos", emptyDF),
       ("vendas_processadas", (⟨["x"], [[("x", Value.str "1")]]⟩ : DataFrame))] :=
  ⟨Or.inl rfl,
    claim_c9_theorem (fun _ _ _ => emptyDF)
      [("vendedores", emptyDF), ("produtos", emptyDF),
       ("vendas_processadas", (⟨["x"], [[("x", Value.str "1")]]⟩ : DataFrame))] (Or.inl rfl)⟩

/-- Claim C10.  If the sales raw table exists but has zero rows (and the other
required raw tables exist, so the pipeline is not aborted by a missing
table), the pipeline replace-writes an empty result, and replace mode with
an empty input DROPs the fact table: after the run `vendas_processadas` is
absent, even when a previous fact table existed — in contrast to the
missing-table case (C9), which preserves it. -/
theorem claim_c10_theorem (enrich : DataFrame → DataFrame → DataFrame → DataFrame)
    (db : Database) (v vd p : DataFrame)
    (hv : readTable? db "vendas" = some v) (hvr : v.rows = [])
    (hvd : readTable? db "vendedores" = some vd)
    (hp : readTable? db "produtos" = some p) :
    readTable? (processarESalvarDadosAnaliticos enrich db) "vendas_processadas" = none := by
  unfold processarESalvarDadosAnaliticos
  rw [hv, hvd, hp]
  show readTable? (if v.rows.isEmpty then escreverParaDbReplace db emptyDF "vendas_processadas"
    else escreverParaDbReplace db (enrich v vd p) "vendas_processadas") "vendas_processadas"
    = none
  rw [if_pos (by rw [hvr]; rfl)]
  show readTable? (dropTable db "vendas_processadas") "vendas_processadas" = none
  unfold readTable? dropTable
  have hfind : List.find? (fun kv => kv.1 = "vendas_processadas")
      (List.filter (fun kv => ¬ kv.1 = "vendas_processadas") db) = none := by
    rw [List.find?_eq_none]
    intro kv hkv hp2
    have h2 := (List.mem_filter.mp hkv).2
    simp only [decide_eq_true_eq] at h2 hp2
    exact h2 hp2
  rw [hfind]
  rfl

/-- Witness for C10 at a concrete database: the sales table exists with zero
rows, sellers and products exist, and a previous fact table exists — and is
gone after the run. -/
theorem claim_c10_witness :
    readTable? [("vendas", (⟨["numeroNota"], []⟩ : DataFrame)), ("vendedores", emptyDF),
        ("produtos", emptyDF),
        ("vendas_processadas", (⟨["x"], [[("x", Value.str "1")]]⟩ : DataFrame))]
      "vendas" = some (⟨["numeroNota"], []⟩ : DataFrame) ∧
    (⟨["numeroNota"], []⟩ : DataFrame).rows = [] ∧
    readTable? (processarESalvarDadosAnaliticos (fun _ _ _ => emptyDF)
        [("vendas", (⟨["numeroNota"], []⟩ : DataFrame)), ("vendedores", emptyDF),
         ("produtos", emptyDF),
         ("vendas_processadas", (⟨["x"], [[("x", Value.str "1")]]⟩ : DataFrame))])
      "vendas_processadas" = none := by
  refine ⟨rfl, rfl, ?_⟩
  exact claim_c10_theorem (fun _ _ _ => emptyDF)
    [("vendas", (⟨["numeroNota"], []⟩ : DataFrame)), ("vendedores", emptyDF),
     ("produtos", emptyDF),
     ("vendas_processadas", (⟨["x"], [[("x", Value.str "1")]]⟩ : DataFrame))]
    (⟨["numeroNota"], []⟩ : DataFrame) emptyDF emptyDF rfl rfl rfl rfl

/-- Lemma: `dedupLast` on a singleton keeps the row. -/
theorem dedupLast_singleton (k : String) (x : Row) : dedupLast k [x] = [x] := by
  simp only [dedupLast]
  rw [if_neg (by simp)]

/-- Lemma: `dedupLast` on a same-key pair keeps the last row. -/
theorem dedupLast_pair (k : String) (x y : Row) (h : getCell y k = getCell x k) :
    dedupLast k [x, y] = [y] := by
  simp only [dedupLast]
  rw [if_pos (by simp [h]), if_neg (by simp)]

/-- Lemma: `cancelProcessado` when returns are present and deletions are absent. -/
theorem cancelProcessado_eq_dev (base dfCanc : DataFrame)
    (hcl : dfCanc.rows.isEmpty = false)
    (hcol : dfCanc.cols.contains "tipoCancelamento" = true)
    (hdev : (filterEq dfCanc "tipoCancelamento" (Value.str "D")).rows.isEmpty = false)
    (hexc : (filterEq dfCanc "tipoCancelamento" (Value.str "E")).rows.isEmpty = true) :
    cancelProcessado base dfCanc = concatSafe base (devolvidasDF dfCanc) := by
  unfold cancelProcessado
  rw [if_neg (by rw [hcl, hcol]; simp)]
  show (if (filterEq dfCanc "tipoCancelamento" (Value.str "E")).rows.isEmpty = true
      then (if (filterEq dfCanc "tipoCancelamento" (Value.str "D")).rows.isEmpty = true
            then base else concatSafe base (devolvidasDF dfCanc))
      else concatSafe
            (if (filterEq dfCanc "tipoCancelamento" (Value.str "D")).rows.isEmpty = true
             then base else concatSafe base (devolvidasDF dfCanc))
            (excluidasDF dfCanc)) = concatSafe base (devolvidasDF dfCanc)
  rw [if_pos hexc, if_neg (by rw [hdev]; decide)]

/-- The reconciliation of one base record with one return-type cancellation
event sharing its natural key: the single surviving row is the EVENT row,
sign-flipped on its own present financial columns, with status DEVOLUÇÃO. -/
theorem reconcileVendas_single_dev (b e : Row)
    (hD : getCell e "tipoCancelamento" = Value.str "D")
    (hk : getCell e "numeroNota" = getCell b "numeroNota") :
    (reconcileVendas [b] (some [e])).rows =
      [setCell (List.foldl (negRowStep (rowKeys e)) e colsInverter)
        "status" (Value.str "DEVOLUÇÃO")] := by
  have htipoNe : getCell e "tipoCancelamento" ≠ Value.nan := by
    rw [hD]
    decide
  have htipoMem : "tipoCancelamento" ∈ rowKeys e :=
    mem_keys_of_getCell_ne_nan e _ htipoNe
  have hcolsE : (mkDF [e]).cols = rowKeys e := by
    show List.foldl (fun acc r => colsUnion acc (rowKeys r)) [] [e] = rowKeys e
    rw [List.foldl_cons, List.foldl_nil, colsUnion_nil_left]
  have hcontains : (mkDF [e]).cols.contains "tipoCancelamento" = true := by
    rw [hcolsE]
    simpa using htipoMem
  have hdevRows : (filterEq (mkDF [e]) "tipoCancelamento" (Value.str "D")).rows = [e] := by
    show List.filter (fun r => getCell r "tipoCancelamento" = Value.str "D") [e] = [e]
    rw [List.filter_cons, if_pos (decide_eq_true hD)]
    rfl
  have hDE : ¬ (getCell e "tipoCancelamento" = Value.str "E") := by
    rw [hD]
    decide
  have hexcRows : (filterEq (mkDF [e]) "tipoCancelamento" (Value.str "E")).rows = [] := by
    show List.filter (fun r => getCell r "tipoCancelamento" = Value.str "E") [e] = []
    rw [List.filter_cons, if_neg (fun hp => hDE (of_decide_eq_true hp))]
    rfl
  have hVlen : (fillStatusOk (mkDF [b])).rows.length = 1 := by
    rw [fillStatusOk_rows_length]
    rfl
  rcases List.length_eq_one.mp hVlen with ⟨bb, hVeq⟩
  have hbbkey : getCell bb "numeroNota" = getCell b "numeroNota" := by
    rcases fillStatusOk_rows_mem (mkDF [b]) bb
        (by rw [hVeq]; exact List.mem_singleton_self bb) "numeroNota" (by decide) with
      ⟨r, hr, hkey⟩
    have hrb : r = b := List.mem_singleton.mp hr
    rw [hkey, hrb]
  have hcolsF : (filterEq (mkDF [e]) "tipoCancelamento" (Value.str "D")).cols = rowKeys e :=
    hcolsE
  have hdevDF : (devolvidasDF (mkDF [e])).rows =
      [setCell (List.foldl (negRowStep (rowKeys e)) e colsInverter)
        "status" (Value.str "DEVOLUÇÃO")] := by
    unfold devolvidasDF setColumn
    rw [negateCols_eq_map]
    simp only [hcolsF, hdevRows, List.map_cons, List.map_nil]
  have hcpEq : cancelProcessado (fillStatusOk (mkDF [b])) (mkDF [e]) =
      concatSafe (fillStatusOk (mkDF [b])) (devolvidasDF (mkDF [e])) :=
    cancelProcessado_eq_dev _ _ rfl hcontains
      (by rw [hdevRows]; rfl) (by rw [hexcRows]; rfl)
  have hcpRows : (cancelProcessado (fillStatusOk (mkDF [b])) (mkDF [e])).rows =
      [bb, setCell (List.foldl (negRowStep (rowKeys e)) e colsInverter)
        "status" (Value.str "DEVOLUÇÃO")] := by
    rw [hcpEq, concatSafe_rows, hVeq, hdevDF]
    rfl
  have hbody : reconcileVendas [b] (some [e]) =
      ⟨(cancelProcessado (fillStatusOk (mkDF [b])) (mkDF [e])).cols,
       dedupLast "numeroNota"
         (cancelProcessado (fillStatusOk (mkDF [b])) (mkDF [e])).rows⟩ := by
    show (if ([e] : List Row).isEmpty = true
        then (if (mkDF [b]).rows.isEmpty = true then mkDF [b] else fillStatusOk (mkDF [b]))
        else if ¬ (mkDF [e]).cols.contains "tipoCancelamento" = true
        then (if (mkDF [b]).rows.isEmpty = true then mkDF [b] else fillStatusOk (mkDF [b]))
        else if (cancelProcessado (if (mkDF [b]).rows.isEmpty = true then mkDF [b]
              else fillStatusOk (mkDF [b])) (mkDF [e])).rows.isEmpty = true
          then cancelProcessado (if (mkDF [b]).rows.isEmpty = true then mkDF [b]
              else fillStatusOk (mkDF [b])) (mkDF [e])
          else ⟨(cancelProcessado (if (mkDF [b]).rows.isEmpty = true then mkDF [b]
              else fillStatusOk (mkDF [b])) (mkDF [e])).cols,
            dedupLast "numeroNota" (cancelProcessado (if (mkDF [b]).rows.isEmpty = true
              then mkDF [b] else fillStatusOk (mkDF [b])) (mkDF [e])).rows⟩) = _
    rw [if_neg (by simp), if_neg (fun hneg => hneg hcontains),
      if_neg (show ¬ ((mkDF [b]).rows.isEmpty = true) by simp [mkDF]),
      if_neg (by rw [hcpRows]; simp)]
  rw [hbody]
  show dedupLast "numeroNota"
      (cancelProcessado (fillStatusOk (mkDF [b])) (mkDF [e])).rows = _
  rw [hcpRows]
  apply dedupLast_pair
  rw [getCell_setCell_ne _ _ _ _ (by decide),
    getCell_negRowFold (rowKeys e) colsInverter colsInverter_nodup e "numeroNota",
    if_neg (fun hand => numeroNota_not_mem_colsInverter hand.1), hk, ← hbbkey]

/-- Claim C1, counterexample.  The very example given in the spec refutes
the claim: base record (numeroNota "100", valorTotalLiquido 50.0) merged
with event (numeroNota "100", tipoCancelamento "D") yields ONE row with
status DEVOLUÇÃO, but its `valorTotalLiquido` is NaN (missing), not −50.0:
the sign flip is applied to the columns the EVENT carries (the event does
not carry `valorTotalLiquido`), and drop-duplicates keeping the last
occurrence discards the values of the base record entirely. -/
theorem claim_c1_counterexample :
    (List.map (fun r => getCell r "valorTotalLiquido")
      (reconcileVendas
        [[("numeroNota", Value.str "100"), ("valorTotalLiquido", Value.num 50)]]
        (some [[("numeroNota", Value.str "100"),
                ("tipoCancelamento", Value.str "D")]])).rows) = [Value.nan] ∧
    Value.nan ≠ Value.num (-50) ∧
    (List.map (fun r => getCell r "status")
      (reconcileVendas
        [[("numeroNota", Value.str "100"), ("valorTotalLiquido", Value.num 50)]]
        (some [[("numeroNota", Value.str "100"),
                ("tipoCancelamento", Value.str "D")]])).rows) =
      [Value.str "DEVOLUÇÃO"] :=
  ⟨by decide, by decide, by decide⟩

/-- Claim C1, amended.  A base record and a return-type cancellation event
sharing `numeroNota` in one merge call yield exactly one output row with
status DEVOLUÇÃO and the shared key; each of the specified numeric columns
of that row is the value of the EVENT coerced to a number and negated when
the event carries the column, and NaN (missing) when it does not — the
values of the base record are discarded, so the output magnitudes equal
those of the base only when the event repeats them (as in the example of
the spec once the event carries valorTotalLiquido 50.0). -/
theorem claim_c1_theorem (b e : Row)
    (hD : getCell e "tipoCancelamento" = Value.str "D")
    (hk : getCell e "numeroNota" = getCell b "numeroNota") :
    (reconcileVendas [b] (some [e])).rows.length = 1 ∧
    ∀ r ∈ (reconcileVendas [b] (some [e])).rows,
      getCell r "status" = Value.str "DEVOLUÇÃO" ∧
      getCell r "numeroNota" = getCell e "numeroNota" ∧
      ∀ c ∈ colsInverter,
        getCell r c =
          if (rowKeys e).contains c then
            Value.num (toNumericFill0 (getCell e c) * (-1))
          else Value.nan := by
  have hred := reconcileVendas_single_dev b e hD hk
  constructor
  · rw [hred]
    rfl
  · intro r hr
    rw [hred] at hr
    rcases List.mem_singleton.mp hr with rfl
    refine ⟨getCell_setCell_eq _ _ _, ?_, ?_⟩
    · rw [getCell_setCell_ne _ _ _ _ (by decide),
        getCell_negRowFold (rowKeys e) colsInverter colsInverter_nodup e "numeroNota",
        if_neg (fun hand => numeroNota_not_mem_colsInverter hand.1)]
    · intro c hc
      have hcne : c ≠ "status" := fun heq => status_not_mem_colsInverter (heq ▸ hc)
      rw [getCell_setCell_ne _ _ _ _ hcne,
        getCell_negRowFold (rowKeys e) colsInverter colsInverter_nodup e c]
      by_cases hcont : (rowKeys e).contains c = true
      · rw [if_pos ⟨hc, hcont⟩, if_pos hcont]
      · rw [if_neg (fun hand => hcont hand.2), if_neg hcont]
        exact getCell_eq_nan_of_not_mem e c (fun hm => hcont (by simpa using hm))

/-- Witness for C1 at the example of the spec with the event carrying the
financial column it is meant to negate. -/
theorem claim_c1_witness :
    getCell [("numeroNota", Value.str "100"), ("tipoCancelamento", Value.str "D"),
        ("valorTotalLiquido", Value.num 50)] "tipoCancelamento" = Value.str "D" ∧
    getCell [("numeroNota", Value.str "100"), ("tipoCancelamento", Value.str "D"),
        ("valorTotalLiquido", Value.num 50)] "numeroNota" =
      getCell [("numeroNota", Value.str "100"), ("valorTotalLiquido", Value.num 50)]
        "numeroNota" ∧
    ((reconcileVendas [[("numeroNota", Value.str "100"), ("valorTotalLiquido", Value.num 50)]]
        (some [[("numeroNota", Value.str "100"), ("tipoCancelamento", Value.str "D"),
                ("valorTotalLiquido", Value.num 50)]])).rows.length = 1 ∧
      ∀ r ∈ (reconcileVendas
          [[("numeroNota", Value.str "100"), ("valorTotalLiquido", Value.num 50)]]
          (some [[("numeroNota", Value.str "100"), ("tipoCancelamento", Value.str "D"),
                  ("valorTotalLiquido", Value.num 50)]])).rows,
        getCell r "status" = Value.str "DEVOLUÇÃO" ∧
        getCell r "numeroNota" =
          getCell [("numeroNota", Value.str "100"), ("tipoCancelamento", Value.str "D"),
            ("valorTotalLiquido", Value.num 50)] "numeroNota" ∧
        ∀ c ∈ colsInverter,
          getCell r c =
            if (rowKeys [("numeroNota", Value.str "100"),
                ("tipoCancelamento", Value.str "D"),
                ("valorTotalLiquido", Value.num 50)]).contains c then
              Value.num (toNumericFill0
                (getCell [("numeroNota", Value.str "100"),
                  ("tipoCancelamento", Value.str "D"),
                  ("valorTotalLiquido", Value.num 50)] c) * (-1))
            else Value.nan) :=
  ⟨by decide, by decide,
    claim_c1_theorem
      [("numeroNota", Value.str "100"), ("valorTotalLiquido", Value.num 50)]
      [("numeroNota", Value.str "100"), ("tipoCancelamento", Value.str "D"),
       ("valorTotalLiquido", Value.num 50)]
      (by decide) (by decide)⟩

/-- Claim C8, counterexample.  The stock sync is not a pure field-level
patch: before writing back it casts the codigo column with `astype(str)`,
so a product whose stored `codigo` is the NUMBER 1 has that field turned
into the STRING "1" even when no stock event matches it — a field other
than `quantidadeEstoque` of an unmatched product changes. -/
theorem claim_c8_counterexample :
    (List.map (fun r => getCell r "codigo")
      (sincronizarEstoque
        ⟨["codigo", "nome", "quantidadeEstoque"],
         [[("codigo", Value.num 1), ("nome", Value.str "A"),
           ("quantidadeEstoque", Value.num 5)]]⟩
        (some [[("codigoProduto", Value.str "2"),
                ("quantidadeEstoque", Value.num 9)]])).rows) ≠ [Value.num 1] ∧
    (List.map (fun r => getCell r "quantidadeEstoque")
      (sincronizarEstoque
        ⟨["codigo", "nome", "quantidadeEstoque"],
         [[("codigo", Value.num 1), ("nome", Value.str "A"),
           ("quantidadeEstoque", Value.num 5)]]⟩
        (some [[("codigoProduto", Value.str "2"),
                ("quantidadeEstoque", Value.num 9)]])).rows) = [Value.num 5] :=
  ⟨by decide, by decide⟩

/-- Claim C8, amended.  For every products table and stock event set (with
the pairwise-distinct event keys `DataFrame.update` requires), the run is a
field-level patch except for the key cast: row for row, every column other
than `codigo` and `quantidadeEstoque` is unchanged; `codigo` becomes its
string-cast form (`astype(str)`); `quantidadeEstoque` is unchanged for
products no event matches, and is overwritten with the value of the event
for matched products when the event value is present. -/
theorem claim_c8_theorem (produtos : DataFrame) (evs : List Row)
    (hevs : evs ≠ []) (hprod : produtos.rows ≠ [])
    (_hnodup : (List.map (fun e2 => valueAsStr (getCell e2 "codigoProduto")) evs).Nodup) :
    List.Forall₂ (fun p p2 =>
      (∀ c : String, c ≠ "codigo" → c ≠ "quantidadeEstoque" →
        getCell p2 c = getCell p c) ∧
      getCell p2 "codigo" = valueAsStr (getCell p "codigo") ∧
      (List.find? (fun ev2 => valueAsStr (getCell ev2 "codigoProduto") =
          valueAsStr (getCell p "codigo")) evs = none →
        getCell p2 "quantidadeEstoque" = getCell p "quantidadeEstoque") ∧
      (∀ ev, List.find? (fun ev2 => valueAsStr (getCell ev2 "codigoProduto") =
          valueAsStr (getCell p "codigo")) evs = some ev →
        produtos.cols.contains "quantidadeEstoque" = true →
        getCell ev "quantidadeEstoque" ≠ Value.nan →
        getCell p2 "quantidadeEstoque" = getCell ev "quantidadeEstoque"))
      produtos.rows (sincronizarEstoque produtos (some evs)).rows := by
  have hred : (sincronizarEstoque produtos (some evs)).rows =
      List.map (patchEstoqueRow produtos.cols evs) produtos.rows := by
    unfold sincronizarEstoque
    simp only [optList]
    rw [if_neg (fun he => hevs (List.isEmpty_iff.mp he)),
      if_neg (fun he => hprod (List.isEmpty_iff.mp he))]
  rw [hred]
  apply forall2_map_self
  intro p _
  unfold patchEstoqueRow
  cases hfind : List.find? (fun ev2 => valueAsStr (getCell ev2 "codigoProduto") =
      valueAsStr (getCell p "codigo")) evs with
  | none =>
    refine ⟨?_, getCell_setCell_eq _ _ _, ?_, ?_⟩
    · intro c hc1 _
      exact getCell_setCell_ne _ _ _ _ hc1
    · intro _
      exact getCell_setCell_ne _ _ _ _ (by decide)
    · intro ev hev
      cases hev
  | some ev =>
    dsimp only
    by_cases hcond : (produtos.cols.contains "quantidadeEstoque" = true ∧
        getCell ev "quantidadeEstoque" ≠ Value.nan)
    · rw [if_pos hcond]
      refine ⟨?_, ?_, ?_, ?_⟩
      · intro c hc1 hc2
        rw [getCell_setCell_ne _ _ _ _ hc2, getCell_setCell_ne _ _ _ _ hc1]
      · rw [getCell_setCell_ne _ _ _ _ (by decide), getCell_setCell_eq]
      · intro hnone
        cases hnone
      · intro ev2 hev2 _ _
        obtain rfl := Option.some.inj hev2
        exact getCell_setCell_eq _ _ _
    · rw [if_neg hcond]
      refine ⟨?_, getCell_setCell_eq _ _ _, ?_, ?_⟩
      · intro c hc1 _
        exact getCell_setCell_ne _ _ _ _ hc1
      · intro hnone
        cases hnone
      · intro ev2 hev2 hcol hnan
        obtain rfl := Option.some.inj hev2
        exact absurd ⟨hcol, hnan⟩ hcond

/-- Witness for C8 at a concrete table of two products and one matching
stock event. -/
theorem claim_c8_witness :
    ([[("codigoProduto", Value.str "2"), ("quantidadeEstoque", Value.num 9)]] :
        List Row) ≠ [] ∧
    (⟨["codigo", "nome", "quantidadeEstoque"],
      [[("codigo", Value.str "1"), ("nome", Value.str "A"),
        ("quantidadeEstoque", Value.num 5)],
       [("codigo", Value.str "2"), ("nome", Value.str "B"),
        ("quantidadeEstoque", Value.num 7)]]⟩ : DataFrame).rows ≠ [] ∧
    (List.map (fun e2 => valueAsStr (getCell e2 "codigoProduto"))
      [[("codigoProduto", Value.str "2"), ("quantidadeEstoque", Value.num 9)]]).Nodup ∧
    List.Forall₂ (fun p p2 =>
      (∀ c : String, c ≠ "codigo" → c ≠ "quantidadeEstoque" →
        getCell p2 c = getCell p c) ∧
      getCell p2 "codigo" = valueAsStr (getCell p "codigo") ∧
      (List.find? (fun ev2 => valueAsStr (getCell ev2 "codigoProduto") =
          valueAsStr (getCell p "codigo"))
          [[("codigoProduto", Value.str "2"), ("quantidadeEstoque", Value.num 9)]] = none →
        getCell p2 "quantidadeEstoque" = getCell p "quantidadeEstoque") ∧
      (∀ ev, List.find? (fun ev2 => valueAsStr (getCell ev2 "codigoProduto") =
          valueAsStr (getCell p "codigo"))
          [[("codigoProduto", Value.str "2"), ("quantidadeEstoque", Value.num 9)]] =
            some ev →
        (⟨["codigo", "nome", "quantidadeEstoque"],
          [[("codigo", Value.str "1"), ("nome", Value.str "A"),
            ("quantidadeEstoque", Value.num 5)],
           [("codigo", Value.str "2"), ("nome", Value.str "B"),
            ("quantidadeEstoque", Value.num 7)]]⟩ : DataFrame).cols.contains
          "quantidadeEstoque" = true →
        getCell ev "quantidadeEstoque" ≠ Value.nan →
        getCell p2 "quantidadeEstoque" = getCell ev "quantidadeEstoque"))
      (⟨["codigo", "nome", "quantidadeEstoque"],
        [[("codigo", Value.str "1"), ("nome", Value.str "A"),
          ("quantidadeEstoque", Value.num 5)],
         [("codigo", Value.str "2"), ("nome", Value.str "B"),
          ("quantidadeEstoque", Value.num 7)]]⟩ : DataFrame).rows
      (sincronizarEstoque
        (⟨["codigo", "nome", "quantidadeEstoque"],
          [[("codigo", Value.str "1"), ("nome", Value.str "A"),
            ("quantidadeEstoque", Value.num 5)],
           [("codigo", Value.str "2"), ("nome", Value.str "B"),
            ("quantidadeEstoque", Value.num 7)]]⟩ : DataFrame)
        (some [[("codigoProduto", Value.str "2"), ("quantidadeEstoque", Value.num 9)]])).rows
    := by
  refine ⟨by decide, by decide, by decide, ?_⟩
  exact claim_c8_theorem
    (⟨["codigo", "nome", "quantidadeEstoque"],
      [[("codigo", Value.str "1"), ("nome", Value.str "A"),
        ("quantidadeEstoque", Value.num 5)],
       [("codigo", Value.str "2"), ("nome", Value.str "B"),
        ("quantidadeEstoque", Value.num 7)]]⟩ : DataFrame)
    [[("codigoProduto", Value.str "2"), ("quantidadeEstoque", Value.num 9)]]
    (by decide) (by decide) (by decide)

end Trier
